import Mathlib

/-!
# Verification of the enroute in-process broker and event model

Shallow embedding of the `enroute` repository:
* `enroute-core/src/event.rs` — the CloudEvents-shaped `Event`, its data
  accessors, and the `EventBuilder`;
* `enroute-core/src/error.rs` — the `Error` enum;
* `enroute-memory/src/inner.rs` — `ConsumerGroup` / `BrokerInner`, the
  round-robin dispatch engine;
* `enroute-memory/src/acker.rs` — `InMemoryAcker`, the requeue-on-nack
  acknowledger.

JSON serialization (the external `serde_json` crate used by `event.rs`) is
modelled concretely: a `Json` value type with integer numbers, a compact
renderer matching serde_json's escaping rules, and a recursive-descent
parser.  Byte strings (`Vec<u8>`) are modelled as `List Char`, one entry
per code point (UTF-8 encoding, a bijection on the strings involved, is
collapsed; an arbitrary non-UTF-8 byte is representable as a code point
below 256).
-/

/-- `enroute_core::error::Error` (error.rs). Payload of `Unknown` is the
display string of the wrapped error. -/
inductive Error where
  | Serialization (msg : String)
  | Deserialization (msg : String)
  | MissingEventData
  | Publisher (msg : String)
  | Consumer (msg : String)
  | Builder (msg : String)
  | Unknown (msg : String)
deriving DecidableEq, Repr

/-- `serde_json::Value`, restricted to integer numbers. -/
inductive Json where
  | null
  | bool (b : Bool)
  | num (n : Int)
  | str (s : String)
  | arr (elems : List Json)
  | obj (fields : List (String × Json))
deriving Inhabited

/-! ## JSON rendering (model of serde_json serialization, compact format) -/

/-- Lower-case hex digit for a value below 16 (serde_json uses lower case). -/
def hexDigitCh (n : Nat) : Char :=
  if n < 10 then Char.ofNat (48 + n) else Char.ofNat (87 + n)

/-- Decimal digit character for a value below 10. -/
def digitCh (n : Nat) : Char := Char.ofNat (48 + n)

/-- Is `c` an ASCII decimal digit? -/
def isDigitCh (c : Char) : Bool := 48 ≤ c.toNat && c.toNat ≤ 57

/-- Decimal digits of `n`, most significant first. -/
def natDigits (n : Nat) : List Char :=
  if n < 10 then [digitCh n]
  else natDigits (n / 10) ++ [digitCh (n % 10)]
decreasing_by exact Nat.div_lt_self (by omega) (by omega)

/-- Decimal rendering of an integer, as serde_json renders `i64`. -/
def intChars (n : Int) : List Char :=
  if n < 0 then '-' :: natDigits n.natAbs else natDigits n.natAbs

/-- serde_json's escaping of one character inside a JSON string literal:
quote and backslash get a two-character escape, the five named control
characters get their short escapes, the remaining control characters get
`\u00XX`, and everything else is passed through. -/
def escapeChar (c : Char) : List Char :=
  if c = '"' then ['\\', '"']
  else if c = '\\' then ['\\', '\\']
  else if c = Char.ofNat 8 then ['\\', 'b']
  else if c = Char.ofNat 9 then ['\\', 't']
  else if c = Char.ofNat 10 then ['\\', 'n']
  else if c = Char.ofNat 12 then ['\\', 'f']
  else if c = Char.ofNat 13 then ['\\', 'r']
  else if c.toNat < 32 then
    ['\\', 'u', '0', '0', hexDigitCh (c.toNat / 16), hexDigitCh (c.toNat % 16)]
  else [c]

/-- Escape every character of a string body. -/
def escapeList : List Char → List Char
  | [] => []
  | c :: cs => escapeChar c ++ escapeList cs

/-- A JSON string literal: quote, escaped body, quote. -/
def renderStringChars (s : String) : List Char :=
  '"' :: (escapeList s.data ++ ['"'])

mutual
/-- Compact rendering of a JSON value (serde_json `to_string` format). -/
def Json.render : Json → List Char
  | .null => "null".data
  | .bool true => "true".data
  | .bool false => "false".data
  | .num n => intChars n
  | .str s => renderStringChars s
  | .arr xs => '[' :: (renderArr xs ++ [']'])
  | .obj kvs => Char.ofNat 123 :: (renderObj kvs ++ [Char.ofNat 125])

/-- Comma-separated rendering of array elements. -/
def renderArr : List Json → List Char
  | [] => []
  | [x] => x.render
  | x :: y :: rest => x.render ++ ',' :: renderArr (y :: rest)

/-- Comma-separated rendering of object fields (`"key":value`). -/
def renderObj : List (String × Json) → List Char
  | [] => []
  | [(k, v)] => renderStringChars k ++ ':' :: v.render
  | (k, v) :: p :: rest =>
      renderStringChars k ++ ':' :: v.render ++ ',' :: renderObj (p :: rest)
end

/-! ## JSON parsing (model of serde_json deserialization) -/

/-- Value of one hex digit (either case accepted on input). -/
def hexDigitVal (c : Char) : Option Nat :=
  if 48 ≤ c.toNat ∧ c.toNat ≤ 57 then some (c.toNat - 48)
  else if 97 ≤ c.toNat ∧ c.toNat ≤ 102 then some (c.toNat - 87)
  else if 65 ≤ c.toNat ∧ c.toNat ≤ 70 then some (c.toNat - 55)
  else none

/-- Four hex digits and the remaining input. -/
def parseHex4 : List Char → Option (Nat × List Char)
  | h1 :: h2 :: h3 :: h4 :: rest =>
    match hexDigitVal h1, hexDigitVal h2, hexDigitVal h3, hexDigitVal h4 with
    | some a, some b, some c, some d => some (((a * 16 + b) * 16 + c) * 16 + d, rest)
    | _, _, _, _ => none
  | _ => none

/-- The body of one escape sequence (after the backslash): the named
escapes, or a `\uXXXX` code point that is not a surrogate half. -/
def parseEscape : List Char → Option (Char × List Char)
  | [] => none
  | e :: rest =>
    if e = '"' then some ('"', rest)
    else if e = '\\' then some ('\\', rest)
    else if e = '/' then some ('/', rest)
    else if e = 'b' then some (Char.ofNat 8, rest)
    else if e = 't' then some (Char.ofNat 9, rest)
    else if e = 'n' then some (Char.ofNat 10, rest)
    else if e = 'f' then some (Char.ofNat 12, rest)
    else if e = 'r' then some (Char.ofNat 13, rest)
    else if e = 'u' then
      match parseHex4 rest with
      | some (code, rest3) =>
        if code < 55296 ∨ 57344 ≤ code then some (Char.ofNat code, rest3) else none
      | none => none
    else none

/-- A hex quad consumes exactly four characters. -/
lemma parseHex4_len (l : List Char) (code : Nat) (r : List Char)
    (h : parseHex4 l = some (code, r)) : r.length + 4 = l.length := by
  rcases l with _ | ⟨a, _ | ⟨b, _ | ⟨c, _ | ⟨d, rest⟩⟩⟩⟩
  · simp [parseHex4] at h
  · simp [parseHex4] at h
  · simp [parseHex4] at h
  · simp [parseHex4] at h
  · simp only [parseHex4] at h
    split at h
    · simp only [Option.some.injEq, Prod.mk.injEq] at h
      obtain ⟨-, rfl⟩ := h
      simp
    · cases h

/-- A successful escape consumes at least one character. -/
lemma parseEscape_lt (l : List Char) (d : Char) (r : List Char)
    (h : parseEscape l = some (d, r)) : r.length < l.length := by
  cases l with
  | nil => simp [parseEscape] at h
  | cons e rest =>
    have hgen : r = rest ∨ r.length + 4 = rest.length := by
      simp only [parseEscape] at h
      by_cases h1 : e = '"'
      · simp only [h1, if_pos, if_true, Option.some.injEq, Prod.mk.injEq] at h
        exact Or.inl h.2.symm
      rw [if_neg h1] at h
      by_cases h2 : e = '\\'
      · simp only [h2, if_pos, if_true, Option.some.injEq, Prod.mk.injEq] at h
        exact Or.inl h.2.symm
      rw [if_neg h2] at h
      by_cases h3 : e = '/'
      · simp only [h3, if_pos, if_true, Option.some.injEq, Prod.mk.injEq] at h
        exact Or.inl h.2.symm
      rw [if_neg h3] at h
      by_cases h4 : e = 'b'
      · simp only [h4, if_pos, if_true, Option.some.injEq, Prod.mk.injEq] at h
        exact Or.inl h.2.symm
      rw [if_neg h4] at h
      by_cases h5 : e = 't'
      · simp only [h5, if_pos, if_true, Option.some.injEq, Prod.mk.injEq] at h
        exact Or.inl h.2.symm
      rw [if_neg h5] at h
      by_cases h6 : e = 'n'
      · simp only [h6, if_pos, if_true, Option.some.injEq, Prod.mk.injEq] at h
        exact Or.inl h.2.symm
      rw [if_neg h6] at h
      by_cases h7 : e = 'f'
      · simp only [h7, if_pos, if_true, Option.some.injEq, Prod.mk.injEq] at h
        exact Or.inl h.2.symm
      rw [if_neg h7] at h
      by_cases h8 : e = 'r'
      · simp only [h8, if_pos, if_true, Option.some.injEq, Prod.mk.injEq] at h
        exact Or.inl h.2.symm
      rw [if_neg h8] at h
      by_cases h9 : e = 'u'
      · rw [if_pos h9] at h
        rcases hp : parseHex4 rest with _ | ⟨code, rest3⟩
        · rw [hp] at h
          cases h
        · rw [hp] at h
          have h2 : (if code < 55296 ∨ 57344 ≤ code then
              some (Char.ofNat code, rest3) else none) = some (d, r) := h
          by_cases hc : code < 55296 ∨ 57344 ≤ code
          · rw [if_pos hc] at h2
            injection h2 with hh
            injection hh with hh1 hh2
            subst hh2
            exact Or.inr (parseHex4_len rest code _ hp)
          · rw [if_neg hc] at h2
            cases h2
      · rw [if_neg h9] at h
        cases h
    rcases hgen with rfl | hlen
    · simp
    · simp only [List.length_cons]
      omega

/-- Body of a JSON string literal after the opening quote: unescapes until
the closing quote, rejecting raw control characters and bad escapes.
Returns the decoded body and the remaining input. -/
def parseStringAux : List Char → List Char → Option (List Char × List Char)
  | [], _ => none
  | c :: rest, acc =>
    if c = '"' then some (acc, rest)
    else if c = '\\' then
      match h : parseEscape rest with
      | some (d, rest2) => parseStringAux rest2 (acc ++ [d])
      | none => none
    else if c.toNat < 32 then none
    else parseStringAux rest (acc ++ [c])
termination_by cs _ => cs.length
decreasing_by
  · have := parseEscape_lt _ _ _ h
    simp only [List.length_cons]
    omega
  · simp

/-- Longest prefix of decimal digits, and the rest of the input. -/
def takeDigits : List Char → List Char × List Char
  | [] => ([], [])
  | c :: cs =>
    if isDigitCh c then
      let (ds, r) := takeDigits cs
      (c :: ds, r)
    else ([], c :: cs)

/-- Value of a digit string (most significant first). -/
def digitsToNat (ds : List Char) : Nat :=
  ds.foldl (fun a c => a * 10 + (c.toNat - 48)) 0

/-- Strip an expected literal from the front of the input. -/
def expectLit : List Char → List Char → Option (List Char)
  | [], cs => some cs
  | _ :: _, [] => none
  | l :: ls, c :: cs => if c = l then expectLit ls cs else none

mutual
/-- Fuel-bounded recursive-descent parser for one JSON value (compact
grammar, integer numbers).  Returns the value and the remaining input. -/
def parseVal : Nat → List Char → Option (Json × List Char)
  | 0, _ => none
  | _ + 1, [] => none
  | fuel + 1, c :: rest =>
    if c = 'n' then
      match expectLit ['u', 'l', 'l'] rest with
      | some r => some (.null, r)
      | none => none
    else if c = 't' then
      match expectLit ['r', 'u', 'e'] rest with
      | some r => some (.bool true, r)
      | none => none
    else if c = 'f' then
      match expectLit ['a', 'l', 's', 'e'] rest with
      | some r => some (.bool false, r)
      | none => none
    else if c = '"' then
      match parseStringAux rest [] with
      | some (body, r) => some (.str (String.mk body), r)
      | none => none
    else if c = '-' then
      match rest with
      | [] => none
      | d :: _ =>
        if isDigitCh d then
          let (ds, r) := takeDigits rest
          some (.num (-(digitsToNat ds : Int)), r)
        else none
    else if isDigitCh c then
      let (ds, r) := takeDigits (c :: rest)
      some (.num (digitsToNat ds), r)
    else if c = '[' then
      match rest with
      | [] => none
      | r0 :: r1 =>
        if r0 = ']' then some (.arr [], r1)
        else
          match parseArrItems fuel (r0 :: r1) with
          | some (xs, r) => some (.arr xs, r)
          | none => none
    else if c = Char.ofNat 123 then
      match rest with
      | [] => none
      | r0 :: r1 =>
        if r0 = Char.ofNat 125 then some (.obj [], r1)
        else
          match parseObjItems fuel (r0 :: r1) with
          | some (kvs, r) => some (.obj kvs, r)
          | none => none
    else none

/-- One-or-more array elements followed by the closing bracket. -/
def parseArrItems : Nat → List Char → Option (List Json × List Char)
  | 0, _ => none
  | fuel + 1, cs =>
    match parseVal fuel cs with
    | some (x, d :: r) =>
      if d = ',' then
        match parseArrItems fuel r with
        | some (xs, r2) => some (x :: xs, r2)
        | none => none
      else if d = ']' then some ([x], r)
      else none
    | _ => none

/-- One-or-more `"key":value` fields followed by the closing brace. -/
def parseObjItems : Nat → List Char → Option (List (String × Json) × List Char)
  | 0, _ => none
  | _ + 1, [] => none
  | fuel + 1, q :: rest =>
    if q = '"' then
      match parseStringAux rest [] with
      | some (key, d :: r) =>
        if d = ':' then
          match parseVal fuel r with
          | some (v, d2 :: r2) =>
            if d2 = ',' then
              match parseObjItems fuel r2 with
              | some (kvs, r3) => some ((String.mk key, v) :: kvs, r3)
              | none => none
            else if d2 = Char.ofNat 125 then some ([(String.mk key, v)], r2)
            else none
          | _ => none
        else none
      | _ => none
    else none
end

/-- Parse a complete JSON document: one value consuming the whole input.
Models serde_json `from_slice` / `from_str` on the inputs of interest
(no interstitial whitespace, integer numbers). -/
def jsonParse (bs : List Char) : Option Json :=
  match parseVal (bs.length + 1) bs with
  | some (v, []) => some v
  | _ => none

/-- serde_json `to_vec` (bytes modelled as code points). -/
def to_vec (v : Json) : List Char := v.render

/-- serde_json `to_string`. -/
def jsonToString (v : Json) : String := String.mk v.render

/-! ## Event model (enroute-core/src/event.rs) -/

/-- `cloudevents::Data`: the three payload variants. -/
inductive CloudEventData where
  | binary (bytes : List Char)
  | json (value : Json)
  | string (s : String)
deriving Inhabited

/-- The `cloudevents::Event` attributes the repository reads or writes
(spec version is fixed at 1.0 by the builder; `time` and extensions carry
no logic in the claims and are omitted from the record). -/
structure CloudEvent where
  id : String
  source : String
  ty : String
  subject : Option String := none
  datacontenttype : Option String := none
  dataschema : Option String := none
  data : Option CloudEventData := none
deriving Inhabited

/-- `enroute_core::event::Event`, a newtype over the CloudEvent. -/
structure Event where
  inner : CloudEvent
deriving Inhabited

/-- `Event::id`. -/
def Event.id (ev : Event) : String := ev.inner.id

/-- `Event::source`. -/
def Event.source (ev : Event) : String := ev.inner.source

/-- `Event::type_`. -/
def Event.type_ (ev : Event) : String := ev.inner.ty

/-- `Event::data_as_bytes` (event.rs lines 103-113): the serialized
payload bytes, `MissingEventData` when no payload is stored. -/
def Event.data_as_bytes (ev : Event) : Except Error (List Char) :=
  match ev.inner.data with
  | none => .error .MissingEventData
  | some (.binary bytes) => .ok bytes
  | some (.json value) => .ok (to_vec value)
  | some (.string s) => .ok s.data

/-- `Event::data_as_value` (event.rs lines 116-127): the payload as a
structured value; binary and text variants are parsed, failing with
`Deserialization`. -/
def Event.data_as_value (ev : Event) : Except Error Json :=
  match ev.inner.data with
  | none => .error .MissingEventData
  | some (.json value) => .ok value
  | some (.binary bytes) =>
    match jsonParse bytes with
    | some v => .ok v
    | none => .error (.Deserialization "invalid JSON")
  | some (.string s) =>
    match jsonParse s.data with
    | some v => .ok v
    | none => .error (.Deserialization "invalid JSON")

/-- `Event::data_as_string` (event.rs lines 130-142): the payload as JSON
text; the binary variant is parsed and re-rendered, with both failure
modes surfaced as `Serialization` (the source maps the whole
`from_slice . and_then to_string` chain through one `map_err`). -/
def Event.data_as_string (ev : Event) : Except Error String :=
  match ev.inner.data with
  | none => .error .MissingEventData
  | some (.string s) => .ok s
  | some (.json value) => .ok (jsonToString value)
  | some (.binary bytes) =>
    match jsonParse bytes with
    | some v => .ok (jsonToString v)
    | none => .error (.Serialization "invalid JSON")

/-! ### EventBuilder (event.rs lines 170-355)

The builder wraps `cloudevents::EventBuilderV10`; the wrapped builder
requires `id`, `source` and `type` to be present when `build` is called
and fails with a missing-attribute error otherwise. -/

/-- The accumulating state of `cloudevents::EventBuilderV10`. -/
structure CloudEventBuilderV10 where
  id : Option String := none
  source : Option String := none
  ty : Option String := none
  subject : Option String := none
  datacontenttype : Option String := none
  dataschema : Option String := none
  data : Option CloudEventData := none

/-- `EventBuilderV10::data`: set content type and payload. -/
def CloudEventBuilderV10.data_ (b : CloudEventBuilderV10) (ct : String)
    (d : CloudEventData) : CloudEventBuilderV10 :=
  { b with datacontenttype := some ct, data := some d }

/-- `EventBuilderV10::data_with_schema`: also set the schema URL. -/
def CloudEventBuilderV10.data_with_schema (b : CloudEventBuilderV10)
    (ct : String) (url : String) (d : CloudEventData) : CloudEventBuilderV10 :=
  { b with datacontenttype := some ct, dataschema := some url, data := some d }

/-- `EventBuilderV10::build`: all of `id`, `source`, `type` required. -/
def CloudEventBuilderV10.buildInner (b : CloudEventBuilderV10) :
    Except Error Event :=
  match b.id, b.source, b.ty with
  | some i, some s, some t =>
    .ok ⟨{ id := i, source := s, ty := t, subject := b.subject,
           datacontenttype := b.datacontenttype, dataschema := b.dataschema,
           data := b.data }⟩
  | _, _, _ => .error (.Unknown "missing required attribute")

/-- `enroute_core::event::EventBuilder`. -/
structure EventBuilder where
  inner : CloudEventBuilderV10
  schema_url : Option String
  error : Option Error

/-- `EventBuilder::new`. -/
def EventBuilder.new : EventBuilder :=
  { inner := {}, schema_url := none, error := none }

/-- `EventBuilder::id`. -/
def EventBuilder.id (b : EventBuilder) (i : String) : EventBuilder :=
  { b with inner := { b.inner with id := some i } }

/-- `EventBuilder::source`. -/
def EventBuilder.source (b : EventBuilder) (s : String) : EventBuilder :=
  { b with inner := { b.inner with source := some s } }

/-- `EventBuilder::subject`. -/
def EventBuilder.subject (b : EventBuilder) (s : String) : EventBuilder :=
  { b with inner := { b.inner with subject := some s } }

/-- `EventBuilder::type_`. -/
def EventBuilder.type_ (b : EventBuilder) (t : String) : EventBuilder :=
  { b with inner := { b.inner with ty := some t } }

/-- `EventBuilder::build` (event.rs lines 306-330), with the payload
already structurally encoded: the source first runs `to_value` on the
typed payload (here the argument `value`), then propagates a deferred
builder error, then stores the structured payload with content type
`application/json` (and the schema URL when one was recorded), overwrites
the `type` attribute with the payload capability's declared event type,
and finishes the wrapped builder. -/
def EventBuilder.build (b : EventBuilder) (value : Json) (eventType : String) :
    Except Error Event :=
  match b.error with
  | some err => .error err
  | none =>
    let inner := match b.schema_url with
      | some url => b.inner.data_with_schema "application/json" url (.json value)
      | none => b.inner.data_ "application/json" (.json value)
    let inner := { inner with ty := some eventType }
    inner.buildInner

/-- `EventBuilder::build_raw` (event.rs lines 332-348): store raw bytes
with content type `application/json`; the `type` attribute is whatever the
caller set. -/
def EventBuilder.build_raw (b : EventBuilder) (bytes : List Char) :
    Except Error Event :=
  match b.error with
  | some err => .error err
  | none =>
    let inner := match b.schema_url with
      | some url => b.inner.data_with_schema "application/json" url (.binary bytes)
      | none => b.inner.data_ "application/json" (.binary bytes)
    inner.buildInner

/-! ## Dispatch engine (enroute-memory/src/inner.rs)

A subscriber endpoint models one `futures::channel::mpsc::unbounded` pair:
the queue of events the sender has enqueued, and whether the receiving end
has been dropped (in which case `send` fails with a disconnected error, as
the unbounded channel's `send` does). -/

/-- One subscriber endpoint (an `UnboundedSender<Event>` with its queue). -/
structure Endpoint where
  queue : List Event
  closed : Bool
deriving Inhabited

/-- A fresh open endpoint, as `unbounded()` creates. -/
def Endpoint.fresh : Endpoint := { queue := [], closed := false }

/-- `UnboundedSender::send`: enqueue, or fail when the receiver is gone.
The error string is the `SendError` display text as `dispatch` wraps it
into `Error::Unknown`. -/
def Endpoint.send (ep : Endpoint) (e : Event) : Endpoint × Option Error :=
  if ep.closed then (ep, some (.Unknown "send failed because receiver is gone"))
  else ({ ep with queue := ep.queue ++ [e] }, none)

/-- `ConsumerGroup` (inner.rs lines 15-19): the ordered subscriber list
and the rotating cursor. -/
structure ConsumerGroup where
  consumers : List Endpoint
  idx : Nat
deriving Inhabited

/-- `ConsumerGroup::new`. -/
def ConsumerGroup.new : ConsumerGroup := { consumers := [], idx := 0 }

/-- `ConsumerGroup::add_consumer` (inner.rs lines 29-33): append a fresh
endpoint; the returned `Nat` is the registration index identifying the
receiver handed back to the caller. -/
def ConsumerGroup.add_consumer (g : ConsumerGroup) : ConsumerGroup × Nat :=
  ({ g with consumers := g.consumers ++ [Endpoint.fresh] }, g.consumers.length)

/-- `ConsumerGroup::dispatch` (inner.rs lines 35-49): empty group is a
no-op success; otherwise select `idx % len`, advance the cursor to
`(idx + 1) % len` (the cursor advances before the send, so it stays
advanced when the send fails), send, and surface a send failure as
`Error::Unknown`.  Returns the mutated group and the error, mirroring the
Rust `&mut self` receiver whose mutations persist across an `Err` return. -/
def ConsumerGroup.dispatch (g : ConsumerGroup) (e : Event) : ConsumerGroup × Option Error :=
  if g.consumers.isEmpty then (g, none)
  else
    let len := g.consumers.length
    let i := g.idx % len
    let g1 := { g with idx := (g.idx + 1) % len }
    let ep := g.consumers.getD i Endpoint.fresh
    let (ep2, err) := ep.send e
    match err with
    | some er => (g1, some er)
    | none => ({ g1 with consumers := g1.consumers.set i ep2 }, none)

/-- `BrokerInner` (inner.rs lines 53-56): channel name → consumer tag →
group.  Both hash maps are modelled as association lists with unique keys;
`publish` iterates the tag map in list order (the Rust `HashMap` iterates
in an arbitrary order, which the ordered model makes explicit). -/
structure BrokerInner where
  groups : List (String × List (String × ConsumerGroup))
deriving Inhabited

/-- `BrokerInner::new`. -/
def BrokerInner.new : BrokerInner := { groups := [] }

/-- The `entry(k).or_insert(d)` idiom: run `f` on the value at `k`,
inserting `d` first when `k` is absent; returns the new map and `f`'s
second result. -/
def modifyEntry {α β : Type} (m : List (String × α)) (k : String) (d : α)
    (f : α → α × β) : List (String × α) × β :=
  match m with
  | [] =>
    let (v, r) := f d
    ([(k, v)], r)
  | (k2, v2) :: rest =>
    if k = k2 then
      let (v, r) := f v2
      ((k2, v) :: rest, r)
    else
      let (rest2, r) := modifyEntry rest k d f
      ((k2, v2) :: rest2, r)

/-- Replace the value stored under key `k`. -/
def setAssoc {α : Type} (m : List (String × α)) (k : String) (v : α) :
    List (String × α) :=
  m.map (fun p => if p.1 = k then (p.1, v) else p)

/-- `BrokerInner::register_consumer` (inner.rs lines 65-76): look up or
lazily create the group for `(channel, tag)` and append a subscriber;
the returned index identifies the new receiving endpoint. -/
def BrokerInner.register_consumer (b : BrokerInner) (channel tag : String) :
    BrokerInner × Nat :=
  let (groups2, rx) := modifyEntry b.groups channel []
    (fun tags => modifyEntry tags tag ConsumerGroup.new ConsumerGroup.add_consumer)
  (⟨groups2⟩, rx)

/-- The `for group in consumer_tags.values()` loop of `publish`: dispatch
to each group in order, stopping at the first error (the `?` operator). -/
def dispatchAll (tags : List (String × ConsumerGroup)) (e : Event) :
    List (String × ConsumerGroup) × Option Error :=
  match tags with
  | [] => ([], none)
  | (t, g) :: rest =>
    let (g2, err) := g.dispatch e
    match err with
    | some er => ((t, g2) :: rest, some er)
    | none =>
      let (rest2, err2) := dispatchAll rest e
      ((t, g2) :: rest2, err2)

/-- `BrokerInner::publish` (inner.rs lines 78-86): when the channel has no
groups, succeed with the event dropped; otherwise dispatch to every tag's
group in order, propagating the first dispatch error. -/
def BrokerInner.publish (b : BrokerInner) (channel : String) (e : Event) :
    BrokerInner × Option Error :=
  match List.lookup channel b.groups with
  | none => (b, none)
  | some tags =>
    let (tags2, err) := dispatchAll tags e
    (⟨setAssoc b.groups channel tags2⟩, err)

/-! ## Acknowledger (enroute-memory/src/acker.rs) -/

/-- The immutable fields of `InMemoryAcker` (acker.rs lines 12-19). -/
structure InMemoryAcker where
  channel : String
  event : Event
  requeue : Bool

/-- One acknowledger together with the state it can reach: the shared
`done` flag (`Arc<AtomicBool>`) and the target of the `Weak<BrokerInner>`
back-reference (`none` when the engine has been dropped, so that
`upgrade()` fails). -/
structure AckerWorld where
  acker : InMemoryAcker
  done : Bool
  broker : Option BrokerInner

/-- `InMemoryAcker::ack` (acker.rs lines 40-44): `done.swap(true)` and
return — the swap marks the acknowledger settled whether or not it
already was, and nothing else happens. -/
def InMemoryAcker.ack (w : AckerWorld) : AckerWorld :=
  { w with done := true }

/-- `InMemoryAcker::nack` (acker.rs lines 46-58): swap the flag, and on
the first settle with requeue enabled and the engine alive, re-publish the
original event to the originating channel through `BrokerInner::publish`,
discarding its result (`let _ =`).  The returned `Bool` records whether
the re-publish was invoked. -/
def InMemoryAcker.nack (w : AckerWorld) : AckerWorld × Bool :=
  if w.done then ({ w with done := true }, false)
  else
    let w1 := { w with done := true }
    if w1.acker.requeue then
      match w1.broker with
      | some inner =>
        let (inner2, _discarded) := inner.publish w1.acker.channel w1.acker.event
        ({ w1 with broker := some inner2 }, true)
      | none => (w1, false)
    else (w1, false)

/-! ## Scenario combinators and observers -/

/-- Register `n` consumers in order under one `(channel, tag)`. -/
def registerMany (b : BrokerInner) (channel tag : String) : Nat → BrokerInner
  | 0 => b
  | n + 1 => registerMany (b.register_consumer channel tag).1 channel tag n

/-- Publish each event in order through `BrokerInner::publish`, collecting
the per-call results (each call is independent, as repeated `publish`
calls are). -/
def publishMany (b : BrokerInner) (channel : String) :
    List Event → BrokerInner × List (Option Error)
  | [] => (b, [])
  | e :: es =>
    let (b2, r) := b.publish channel e
    let (b3, rs) := publishMany b2 channel es
    (b3, r :: rs)

/-- Dispatch each event in order to one group, collecting the results. -/
def dispatchList (g : ConsumerGroup) :
    List Event → ConsumerGroup × List (Option Error)
  | [] => (g, [])
  | e :: es =>
    let (g2, r) := g.dispatch e
    let (g3, rs) := dispatchList g2 es
    (g3, r :: rs)

/-- The queue of the subscriber registered at index `i` under
`(channel, tag)`. -/
def BrokerInner.endpointQueueAt (b : BrokerInner) (channel tag : String)
    (i : Nat) : List Event :=
  match List.lookup channel b.groups with
  | none => []
  | some tags =>
    match List.lookup tag tags with
    | none => []
    | some g => (g.consumers.getD i Endpoint.fresh).queue

/-- The round-robin cursor of the group under `(channel, tag)`. -/
def BrokerInner.cursorAt (b : BrokerInner) (channel tag : String) : Nat :=
  match List.lookup channel b.groups with
  | none => 0
  | some tags =>
    match List.lookup tag tags with
    | none => 0
    | some g => g.idx

/-- Total number of enqueued events across a group's endpoints. -/
def ConsumerGroup.totalQueued (g : ConsumerGroup) : Nat :=
  (g.consumers.map (fun ep => ep.queue.length)).sum

/-- Reference assignment of round-robin delivery: starting from cursor
`k`, the sublist of `es` that lands on subscriber `i` of `N`. -/
def rrAssign (N : Nat) : Nat → List Event → Nat → List Event
  | _, [], _ => []
  | k, e :: es, i =>
    (if k % N = i then [e] else []) ++ rrAssign N ((k + 1) % N) es i

/-! ## Dispatch lemmas -/

/-- Dispatch to a non-empty group whose selected endpoint is open:
the event is appended to the selected endpoint's queue and the cursor
advances by one, wrapping. -/
lemma ConsumerGroup.dispatch_open (g : ConsumerGroup) (e : Event)
    (hne : g.consumers ≠ [])
    (hopen : (g.consumers.getD (g.idx % g.consumers.length) Endpoint.fresh).closed = false) :
    g.dispatch e =
      ({ consumers := g.consumers.set (g.idx % g.consumers.length)
           { g.consumers.getD (g.idx % g.consumers.length) Endpoint.fresh with
             queue := (g.consumers.getD (g.idx % g.consumers.length) Endpoint.fresh).queue ++ [e] },
         idx := (g.idx + 1) % g.consumers.length }, none) := by
  have hemp : g.consumers.isEmpty = false := by
    simpa [List.isEmpty_iff] using hne
  simp only [List.getD_eq_getElem?_getD] at hopen
  simp [ConsumerGroup.dispatch, hemp, Endpoint.send, hopen]

/-- Dispatch to a non-empty group whose selected endpoint is closed:
the cursor still advances, nothing is enqueued, and the send failure is
surfaced as `Error::Unknown`. -/
lemma ConsumerGroup.dispatch_closed (g : ConsumerGroup) (e : Event)
    (hne : g.consumers ≠ [])
    (hcl : (g.consumers.getD (g.idx % g.consumers.length) Endpoint.fresh).closed = true) :
    g.dispatch e =
      ({ g with idx := (g.idx + 1) % g.consumers.length },
       some (.Unknown "send failed because receiver is gone")) := by
  have hemp : g.consumers.isEmpty = false := by
    simpa [List.isEmpty_iff] using hne
  simp only [List.getD_eq_getElem?_getD] at hcl
  simp [ConsumerGroup.dispatch, hemp, Endpoint.send, hcl]

/-- Dispatch to an empty group is a no-op success. -/
lemma ConsumerGroup.dispatch_empty (g : ConsumerGroup) (e : Event)
    (h : g.consumers = []) : g.dispatch e = (g, none) := by
  simp [ConsumerGroup.dispatch, h]

/-- Core round-robin invariant: dispatching a list of events to a group
whose endpoints are all open succeeds throughout, advances the cursor by
the number of events (wrapping), and appends to subscriber `j` exactly the
events `rrAssign` assigns to it. -/
lemma dispatchList_spec (es : List Event) :
    ∀ (g : ConsumerGroup) (N : Nat), g.consumers.length = N → g.idx < N →
    (∀ ep ∈ g.consumers, ep.closed = false) →
    (dispatchList g es).2 = List.replicate es.length none ∧
    (dispatchList g es).1.idx = (g.idx + es.length) % N ∧
    (dispatchList g es).1.consumers.length = N ∧
    (∀ ep ∈ (dispatchList g es).1.consumers, ep.closed = false) ∧
    (∀ j, ((dispatchList g es).1.consumers.getD j Endpoint.fresh).queue =
      (g.consumers.getD j Endpoint.fresh).queue ++ rrAssign N g.idx es j) := by
  induction es with
  | nil =>
    intro g N hlen hidx hopen
    refine ⟨rfl, ?_, hlen, hopen, ?_⟩
    · simpa [dispatchList] using (Nat.mod_eq_of_lt hidx).symm
    · intro j
      simp [dispatchList, rrAssign]
  | cons e es ih =>
    intro g N hlen hidx hopen
    have hN : 0 < N := Nat.lt_of_le_of_lt (Nat.zero_le _) hidx
    have hlenpos : 0 < g.consumers.length := by omega
    have hne : g.consumers ≠ [] := by
      intro h
      rw [h] at hlen
      simp at hlen
      omega
    have hsel : g.idx % g.consumers.length = g.idx := by
      rw [hlen]
      exact Nat.mod_eq_of_lt hidx
    have hmem : g.consumers.getD (g.idx % g.consumers.length) Endpoint.fresh ∈ g.consumers := by
      rw [hsel, List.getD_eq_getElem g.consumers Endpoint.fresh (by omega)]
      exact List.getElem_mem _
    have hopensel := hopen _ hmem
    have hd := ConsumerGroup.dispatch_open g e hne hopensel
    set ep := g.consumers.getD (g.idx % g.consumers.length) Endpoint.fresh with hep
    set g2 : ConsumerGroup :=
      { consumers := g.consumers.set (g.idx % g.consumers.length)
          { ep with queue := ep.queue ++ [e] },
        idx := (g.idx + 1) % g.consumers.length } with hg2
    have hlen2 : g2.consumers.length = N := by
      simp [hg2, List.length_set, hlen]
    have hidx2 : g2.idx < N := by
      simp only [hg2, hlen]
      exact Nat.mod_lt _ hN
    have hopen2 : ∀ ep2 ∈ g2.consumers, ep2.closed = false := by
      intro ep2 h2
      rcases List.mem_or_eq_of_mem_set h2 with h3 | h3
      · exact hopen _ h3
      · rw [h3]
        exact hopensel
    obtain ⟨ih1, ih2, ih3, ih4, ih5⟩ := ih g2 N hlen2 hidx2 hopen2
    have hstep : dispatchList g (e :: es) =
        ((dispatchList g2 es).1, none :: (dispatchList g2 es).2) := by
      simp [dispatchList, hd, hg2]
    refine ⟨?_, ?_, ?_, ?_, ?_⟩
    · rw [hstep]
      simp [ih1, List.replicate_succ]
    · rw [hstep]
      simp only [ih2, List.length_cons]
      rw [hlen]
      conv_rhs => rw [show g.idx + (es.length + 1) = (g.idx + 1) + es.length by omega]
      rw [Nat.add_mod (g.idx + 1) es.length N,
        Nat.add_mod ((g.idx + 1) % N) es.length N,
        Nat.mod_mod_of_dvd _ (dvd_refl N)]
    · rw [hstep]
      exact ih3
    · rw [hstep]
      exact ih4
    · intro j
      rw [hstep]
      have hrr : rrAssign N g.idx (e :: es) j =
          (if g.idx % N = j then [e] else []) ++ rrAssign N ((g.idx + 1) % N) es j := rfl
      have hmodidx : g.idx % N = g.idx := Nat.mod_eq_of_lt hidx
      have hidx2' : g.idx < g.consumers.length := by omega
      simp only [ih5 j]
      have harg : (g.idx + 1) % g.consumers.length = (g.idx + 1) % N := by rw [hlen]
      rw [hrr, hmodidx, hsel, harg]
      by_cases hj : g.idx = j
      · subst hj
        have h1 : (g.consumers.set g.idx
            { ep with queue := ep.queue ++ [e] }).getD g.idx Endpoint.fresh =
            { ep with queue := ep.queue ++ [e] } := by
          rw [List.getD_eq_getElem?_getD, List.getElem?_set]
          simp [hidx2']
        have h2 : g.consumers.getD g.idx Endpoint.fresh = ep := by
          rw [hep, hsel]
        rw [h1, h2]
        simp [List.append_assoc]
      · have h1 : (g.consumers.set g.idx
            { ep with queue := ep.queue ++ [e] }).getD j Endpoint.fresh =
            g.consumers.getD j Endpoint.fresh := by
          rw [List.getD_eq_getElem?_getD, List.getElem?_set, List.getD_eq_getElem?_getD]
          simp [hj]
        rw [h1]
        simp [hj]

/-- `rrAssign` computes exactly "the events at publish indices congruent
to `i` mod `N`": starting the cursor at `n % N` matches filtering the
events enumerated from `n` by index mod `N`. -/
lemma rrAssign_enumFrom (N i : Nat) :
    ∀ (es : List Event) (n : Nat),
    rrAssign N (n % N) es i =
      ((List.enumFrom n es).filter (fun p => p.1 % N == i)).map Prod.snd := by
  intro es
  induction es with
  | nil =>
    intro n
    simp [rrAssign]
  | cons e es ih =>
    intro n
    have h1 : n % N % N = n % N := Nat.mod_mod_of_dvd _ (dvd_refl N)
    have h2 : (n % N + 1) % N = (n + 1) % N := by
      conv_lhs => rw [Nat.add_mod (n % N) 1 N, Nat.mod_mod_of_dvd _ (dvd_refl N)]
      rw [Nat.add_mod n 1 N]
    have hstep : rrAssign N (n % N) (e :: es) i =
        (if n % N % N = i then [e] else []) ++ rrAssign N ((n % N + 1) % N) es i := rfl
    rw [hstep, h1, h2, ih (n + 1)]
    by_cases hc : n % N = i
    · simp [List.enumFrom, List.filter_cons, hc]
    · simp [List.enumFrom, List.filter_cons, hc]

/-- One registration on a singleton registry appends one fresh endpoint. -/
lemma register_consumer_singleton (ch tg : String) (g : ConsumerGroup) :
    BrokerInner.register_consumer ⟨[(ch, [(tg, g)])]⟩ ch tg =
      (⟨[(ch, [(tg, { g with consumers := g.consumers ++ [Endpoint.fresh] })])]⟩,
       g.consumers.length) := by
  simp [BrokerInner.register_consumer, modifyEntry, ConsumerGroup.add_consumer]

/-- Repeated registration on a singleton registry appends fresh endpoints
in registration order. -/
lemma registerMany_start (ch tg : String) :
    ∀ (n : Nat) (g : ConsumerGroup),
    registerMany ⟨[(ch, [(tg, g)])]⟩ ch tg n =
      ⟨[(ch, [(tg, { g with consumers := g.consumers ++ List.replicate n Endpoint.fresh })])]⟩ := by
  intro n
  induction n with
  | zero =>
    intro g
    simp [registerMany]
  | succ n ih =>
    intro g
    have hr := register_consumer_singleton ch tg g
    simp only [registerMany, hr, ih]
    simp [List.replicate_succ, List.append_assoc]

/-- Registering `n` consumers on a fresh broker yields one group of `n`
fresh endpoints with cursor `0` under `(channel, tag)`. -/
lemma registerMany_new (ch tg : String) (n : Nat) (hn : 0 < n) :
    registerMany BrokerInner.new ch tg n =
      ⟨[(ch, [(tg, ⟨List.replicate n Endpoint.fresh, 0⟩)])]⟩ := by
  obtain ⟨m, rfl⟩ : ∃ m, n = m + 1 := ⟨n - 1, by omega⟩
  have h1 : (BrokerInner.new.register_consumer ch tg) =
      (⟨[(ch, [(tg, ⟨[Endpoint.fresh], 0⟩)])]⟩, 0) := by
    simp [BrokerInner.new, BrokerInner.register_consumer, modifyEntry,
      ConsumerGroup.new, ConsumerGroup.add_consumer]
  simp only [registerMany, h1, registerMany_start]
  simp [List.replicate_succ]

/-- `dispatchAll` on a one-tag list is a single dispatch. -/
lemma dispatchAll_singleton (tg : String) (g : ConsumerGroup) (e : Event) :
    dispatchAll [(tg, g)] e = ([(tg, (g.dispatch e).1)], (g.dispatch e).2) := by
  rcases h : g.dispatch e with ⟨g2, err⟩
  cases err <;> simp [dispatchAll, h]

/-- `publish` on a singleton registry is a single dispatch to its group. -/
lemma publish_singleton (ch tg : String) (g : ConsumerGroup) (e : Event) :
    BrokerInner.publish ⟨[(ch, [(tg, g)])]⟩ ch e =
      (⟨[(ch, [(tg, (g.dispatch e).1)])]⟩, (g.dispatch e).2) := by
  simp [BrokerInner.publish, List.lookup, dispatchAll_singleton, setAssoc]

/-- Publishing a list through a singleton registry is `dispatchList` on
its group. -/
lemma publishMany_singleton (ch tg : String) :
    ∀ (es : List Event) (g : ConsumerGroup),
    publishMany ⟨[(ch, [(tg, g)])]⟩ ch es =
      (⟨[(ch, [(tg, (dispatchList g es).1)])]⟩, (dispatchList g es).2) := by
  intro es
  induction es with
  | nil =>
    intro g
    simp [publishMany, dispatchList]
  | cons e es ih =>
    intro g
    rcases hd : g.dispatch e with ⟨g2, r⟩
    simp [publishMany, dispatchList, publish_singleton, hd, ih]

/-- A minimal concrete event used by the dispatch witnesses. -/
def mkEv (i : String) : Event :=
  ⟨{ id := i, source := "src", ty := "T" }⟩

/-- **C1** (round-robin fairness): for `N` subscribers registered in order
under one `(channel, tag)` and `M` published events with `N ∣ M`, every
publish succeeds, the subscriber at registration index `i` receives
exactly the events at publish indices congruent to `i` mod `N` in publish
order, and the group's cursor — which selects `cursor % N` and advances by
one, wrapping, on each dispatch — ends at `M % N`. -/
theorem round_robin_fairness (ch tg : String) (N : Nat) (hN : 0 < N)
    (es : List Event) (hM : N ∣ es.length) (i : Nat) (hi : i < N) :
    (publishMany (registerMany BrokerInner.new ch tg N) ch es).2 =
        List.replicate es.length none ∧
    (publishMany (registerMany BrokerInner.new ch tg N) ch es).1.endpointQueueAt ch tg i =
        ((es.enum.filter (fun p => p.1 % N == i)).map Prod.snd) ∧
    (publishMany (registerMany BrokerInner.new ch tg N) ch es).1.cursorAt ch tg =
        es.length % N := by
  rw [registerMany_new ch tg N hN, publishMany_singleton]
  obtain ⟨h1, h2, h3, h4, h5⟩ :=
    dispatchList_spec es ⟨List.replicate N Endpoint.fresh, 0⟩ N
      (by simp) hN
      (by
        intro ep h
        rw [List.eq_of_mem_replicate h]
        rfl)
  refine ⟨h1, ?_, ?_⟩
  · have hq := h5 i
    have hfresh : (List.replicate N Endpoint.fresh).getD i Endpoint.fresh = Endpoint.fresh := by
      rw [List.getD_eq_getElem?_getD, List.getElem?_replicate]
      by_cases hiN : i < N <;> simp [hiN]
    simp only [BrokerInner.endpointQueueAt, List.lookup, beq_self_eq_true] at *
    rw [hq, hfresh]
    have h0 : (0 : Nat) % N = 0 := Nat.zero_mod N
    have := rrAssign_enumFrom N i es 0
    rw [h0] at this
    rw [this]
    rfl
  · simp only [BrokerInner.cursorAt, List.lookup, beq_self_eq_true]
    rw [h2]
    simp

/-- Witness for C1: channel `"orders"`, tag `"billing"`, 2 subscribers,
events E1..E4 — subscriber 0 receives `[E1, E3]`. -/
theorem round_robin_fairness_witness :
    (publishMany (registerMany BrokerInner.new "orders" "billing" 2) "orders"
        [mkEv "1", mkEv "2", mkEv "3", mkEv "4"]).1.endpointQueueAt "orders" "billing" 0 =
      [mkEv "1", mkEv "3"] :=
  ((round_robin_fairness "orders" "billing" 2 (by decide)
      [mkEv "1", mkEv "2", mkEv "3", mkEv "4"] (by decide) 0 (by decide)).2.1).trans (by rfl)

/-- When every tag's dispatch succeeds, the publish loop maps each group
through its own dispatch, independently. -/
lemma dispatchAll_success (e : Event) :
    ∀ (tags : List (String × ConsumerGroup)),
    (∀ p ∈ tags, (p.2.dispatch e).2 = none) →
    dispatchAll tags e = (tags.map (fun p => (p.1, (p.2.dispatch e).1)), none) := by
  intro tags
  induction tags with
  | nil =>
    intro _
    rfl
  | cons p rest ih =>
    intro h
    rcases p with ⟨t, g⟩
    have h1 : (g.dispatch e).2 = none := h (t, g) (by simp)
    rcases hd : g.dispatch e with ⟨g2, err⟩
    rw [hd] at h1
    simp only at h1
    subst h1
    have h2 := ih (fun q hq => h q (by simp [hq]))
    simp [dispatchAll, hd, h2]

/-- Replacing one element adjusts a mapped sum by the difference. -/
lemma sum_map_set {α : Type} (f : α → Nat) (d : α) :
    ∀ (l : List α) (i : Nat), i < l.length → ∀ (a : α),
    ((l.set i a).map f).sum + f (l.getD i d) = (l.map f).sum + f a := by
  intro l
  induction l with
  | nil =>
    intro i hi
    simp at hi
  | cons x xs ih =>
    intro i hi a
    cases i with
    | zero =>
      simp [List.set]
      omega
    | succ i =>
      have hi2 : i < xs.length := by simpa using hi
      have h := ih i hi2 a
      have hset : (x :: xs).set (i + 1) a = x :: xs.set i a := rfl
      have hgd : (x :: xs).getD (i + 1) d = xs.getD i d := rfl
      rw [hset, hgd]
      simp only [List.map_cons, List.sum_cons]
      omega

/-- A successful dispatch adds exactly one enqueued event to the group. -/
lemma dispatch_totalQueued (g : ConsumerGroup) (e : Event)
    (hne : g.consumers ≠ [])
    (hopen : (g.consumers.getD (g.idx % g.consumers.length) Endpoint.fresh).closed = false) :
    (g.dispatch e).1.totalQueued = g.totalQueued + 1 := by
  rw [ConsumerGroup.dispatch_open g e hne hopen]
  have hlenpos : 0 < g.consumers.length := List.length_pos.mpr hne
  have hsel : g.idx % g.consumers.length < g.consumers.length := Nat.mod_lt _ hlenpos
  have h := sum_map_set (fun ep => ep.queue.length) Endpoint.fresh g.consumers
    (g.idx % g.consumers.length) hsel
    { g.consumers.getD (g.idx % g.consumers.length) Endpoint.fresh with
      queue := (g.consumers.getD (g.idx % g.consumers.length) Endpoint.fresh).queue ++ [e] }
  have hlen : ((g.consumers.getD (g.idx % g.consumers.length) Endpoint.fresh).queue
      ++ [e]).length =
      (g.consumers.getD (g.idx % g.consumers.length) Endpoint.fresh).queue.length + 1 := by
    simp
  simp only at h
  rw [hlen] at h
  simp only [ConsumerGroup.totalQueued]
  omega

/-- **C2** (tag multicast): publishing one event to a channel whose tags
all have non-empty groups of live subscribers succeeds, transforms each
tag's group by its own dispatch only (no tag reads or advances another
tag's cursor), and delivers exactly one copy per tag: each group's cursor
advances by one (wrapping), its selected endpoint's queue grows by exactly
the published event, every other endpoint is untouched, and the group's
total enqueued count rises by one. -/
theorem tag_multicast (ch : String) (tags : List (String × ConsumerGroup)) (e : Event)
    (hne : ∀ p ∈ tags, p.2.consumers ≠ [])
    (hopen : ∀ p ∈ tags, ∀ ep ∈ p.2.consumers, ep.closed = false) :
    (BrokerInner.publish ⟨[(ch, tags)]⟩ ch e).2 = none ∧
    (BrokerInner.publish ⟨[(ch, tags)]⟩ ch e).1.groups =
      [(ch, tags.map (fun p => (p.1, (p.2.dispatch e).1)))] ∧
    (∀ p ∈ tags,
      (p.2.dispatch e).1.idx = (p.2.idx + 1) % p.2.consumers.length ∧
      (p.2.dispatch e).1.totalQueued = p.2.totalQueued + 1 ∧
      (∀ j, j ≠ p.2.idx % p.2.consumers.length →
        (p.2.dispatch e).1.consumers.getD j Endpoint.fresh =
          p.2.consumers.getD j Endpoint.fresh) ∧
      ((p.2.dispatch e).1.consumers.getD (p.2.idx % p.2.consumers.length) Endpoint.fresh).queue =
        (p.2.consumers.getD (p.2.idx % p.2.consumers.length) Endpoint.fresh).queue ++ [e]) := by
  have hopensel : ∀ p ∈ tags,
      (p.2.consumers.getD (p.2.idx % p.2.consumers.length) Endpoint.fresh).closed = false := by
    intro p hp
    have hlenpos : 0 < p.2.consumers.length := List.length_pos.mpr (hne p hp)
    have hm : p.2.consumers.getD (p.2.idx % p.2.consumers.length) Endpoint.fresh
        ∈ p.2.consumers := by
      rw [List.getD_eq_getElem p.2.consumers Endpoint.fresh (Nat.mod_lt _ hlenpos)]
      exact List.getElem_mem _
    exact hopen p hp _ hm
  have hall : ∀ p ∈ tags, ((p.2).dispatch e).2 = none := by
    intro p hp
    rw [ConsumerGroup.dispatch_open p.2 e (hne p hp) (hopensel p hp)]
  have hda := dispatchAll_success e tags hall
  have hpub : BrokerInner.publish ⟨[(ch, tags)]⟩ ch e =
      (⟨[(ch, tags.map (fun p => (p.1, (p.2.dispatch e).1)))]⟩, none) := by
    simp [BrokerInner.publish, List.lookup, hda, setAssoc]
  refine ⟨by rw [hpub], by rw [hpub], ?_⟩
  intro p hp
  have hd := ConsumerGroup.dispatch_open p.2 e (hne p hp) (hopensel p hp)
  have hlenpos : 0 < p.2.consumers.length := List.length_pos.mpr (hne p hp)
  have hsel : p.2.idx % p.2.consumers.length < p.2.consumers.length := Nat.mod_lt _ hlenpos
  refine ⟨by rw [hd], dispatch_totalQueued p.2 e (hne p hp) (hopensel p hp), ?_, ?_⟩
  · intro j hj
    rw [hd]
    simp only [List.getD_eq_getElem?_getD, List.getElem?_set]
    have : ¬(p.2.idx % p.2.consumers.length = j) := fun h => hj h.symm
    simp [this]
  · rw [hd]
    simp only [List.getD_eq_getElem?_getD, List.getElem?_set]
    simp [hsel]

/-- Witness for C2: channel `"orders"` with tags `"billing"` and
`"shipping"`, one subscriber each — publishing E1 succeeds and both
subscribers receive a copy. -/
theorem tag_multicast_witness :
    (BrokerInner.publish
        ⟨[("orders", [("billing", ⟨[Endpoint.fresh], 0⟩),
                      ("shipping", ⟨[Endpoint.fresh], 0⟩)])]⟩
        "orders" (mkEv "1")).2 = none ∧
    (BrokerInner.publish
        ⟨[("orders", [("billing", ⟨[Endpoint.fresh], 0⟩),
                      ("shipping", ⟨[Endpoint.fresh], 0⟩)])]⟩
        "orders" (mkEv "1")).1.groups =
      [("orders", [("billing", ⟨[⟨[mkEv "1"], false⟩], 0⟩),
                   ("shipping", ⟨[⟨[mkEv "1"], false⟩], 0⟩)])] := by
  have h := tag_multicast "orders"
    [("billing", ⟨[Endpoint.fresh], 0⟩), ("shipping", ⟨[Endpoint.fresh], 0⟩)] (mkEv "1")
    (by intro p hp; fin_cases hp <;> simp)
    (by intro p hp; fin_cases hp <;> (intro ep hep; fin_cases hep <;> rfl))
  exact ⟨h.1, h.2.1.trans (by rfl)⟩

/-- **C7** (empty-group no-op): publishing to a channel with no registered
consumer groups succeeds and leaves the broker unchanged; dispatching to a
group with zero subscribers succeeds and leaves it unchanged; publishing
to a channel whose only group has zero subscribers succeeds with the event
dropped. -/
theorem empty_group_noop (b : BrokerInner) (ch tg : String) (e : Event)
    (g : ConsumerGroup) (k : Nat) :
    (List.lookup ch b.groups = none → b.publish ch e = (b, none)) ∧
    (g.consumers = [] → g.dispatch e = (g, none)) ∧
    BrokerInner.publish ⟨[(ch, [(tg, ⟨[], k⟩)])]⟩ ch e =
      (⟨[(ch, [(tg, ⟨[], k⟩)])]⟩, none) := by
  refine ⟨?_, ConsumerGroup.dispatch_empty g e, ?_⟩
  · intro h
    simp [BrokerInner.publish, h]
  · rw [publish_singleton, ConsumerGroup.dispatch_empty ⟨[], k⟩ e rfl]

/-- Witness for C7: a fresh broker accepts a publish to an unknown channel,
and a fresh group accepts a dispatch, both as no-op successes. -/
theorem empty_group_noop_witness :
    BrokerInner.publish BrokerInner.new "c" (mkEv "e") = (BrokerInner.new, none) ∧
    ConsumerGroup.new.dispatch (mkEv "e") = (ConsumerGroup.new, none) := by
  have h := empty_group_noop BrokerInner.new "c" "t" (mkEv "e") ConsumerGroup.new 0
  exact ⟨h.1 rfl, h.2.1 rfl⟩

/-- Counterexample for C9 as stated: with one subscriber whose receiving
endpoint has been dropped, a publish whose cursor selects it returns an
`Unknown` error to the publishing caller — an error *is* surfaced. -/
theorem closed_endpoint_counterexample :
    (BrokerInner.publish ⟨[("c", [("t", ⟨[⟨[], true⟩], 0⟩)])]⟩ "c" (mkEv "e")).2 =
      some (.Unknown "send failed because receiver is gone") := rfl

/-- **C9 amended**: when the round-robin cursor selects a subscriber whose
receiving endpoint has been dropped, the enqueue fails and `publish`
surfaces the failure as an `Error::Unknown` to the publishing caller; the
subscriber is not removed (the group keeps its endpoint list) and the
cursor still advances past it. -/
theorem closed_endpoint_surfaces_error (ch tg : String) (g : ConsumerGroup) (e : Event)
    (hne : g.consumers ≠ [])
    (hcl : (g.consumers.getD (g.idx % g.consumers.length) Endpoint.fresh).closed = true) :
    BrokerInner.publish ⟨[(ch, [(tg, g)])]⟩ ch e =
      (⟨[(ch, [(tg, { g with idx := (g.idx + 1) % g.consumers.length })])]⟩,
       some (.Unknown "send failed because receiver is gone")) := by
  rw [publish_singleton, ConsumerGroup.dispatch_closed g e hne hcl]

/-- Witness for the amended C9 at one dropped subscriber with cursor 5. -/
theorem closed_endpoint_surfaces_error_witness :
    BrokerInner.publish ⟨[("c", [("t", ⟨[⟨[], true⟩], 5⟩)])]⟩ "c" (mkEv "e") =
      (⟨[("c", [("t", ⟨[⟨[], true⟩], 0⟩)])]⟩,
       some (.Unknown "send failed because receiver is gone")) :=
  (closed_endpoint_surfaces_error "c" "t" ⟨[⟨[], true⟩], 5⟩ (mkEv "e")
    (by simp) rfl).trans (by rfl)

/-- The publish loop when the group at one position fails: earlier groups
keep their dispatch results, the failing group only advances its cursor,
later groups are untouched, and the error is returned. -/
lemma dispatchAll_fail_middle (e : Event) :
    ∀ (pre : List (String × ConsumerGroup)),
    (∀ p ∈ pre, (p.2.dispatch e).2 = none) →
    ∀ (tg : String) (g g2 : ConsumerGroup) (post : List (String × ConsumerGroup)) (er : Error),
    g.dispatch e = (g2, some er) →
    dispatchAll (pre ++ (tg, g) :: post) e =
      (pre.map (fun p => (p.1, (p.2.dispatch e).1)) ++ (tg, g2) :: post, some er) := by
  intro pre
  induction pre with
  | nil =>
    intro _ tg g g2 post er hd
    simp [dispatchAll, hd]
  | cons p rest ih =>
    intro h tg g g2 post er hd
    rcases p with ⟨t0, g0⟩
    have h0 : (g0.dispatch e).2 = none := h (t0, g0) (by simp)
    rcases hd0 : g0.dispatch e with ⟨g0b, err0⟩
    rw [hd0] at h0
    simp only at h0
    subst h0
    have h2 := ih (fun q hq => h q (by simp [hq])) tg g g2 post er hd
    simp [dispatchAll, hd0, h2]

/-- **C10** (publish is not atomic on error): when the groups iterated
before position `k` all dispatch successfully and the group at `k` fails
(its selected endpoint is dropped), `publish` returns the `Unknown` error
immediately; the earlier groups keep their deliveries, the failing group
only advances its cursor, and the groups not yet iterated are left exactly
as they were — they receive nothing. -/
theorem publish_not_atomic (ch tg : String) (e : Event)
    (pre post : List (String × ConsumerGroup)) (g : ConsumerGroup)
    (hpre : ∀ p ∈ pre, (p.2.dispatch e).2 = none)
    (hne : g.consumers ≠ [])
    (hcl : (g.consumers.getD (g.idx % g.consumers.length) Endpoint.fresh).closed = true) :
    BrokerInner.publish ⟨[(ch, pre ++ (tg, g) :: post)]⟩ ch e =
      (⟨[(ch, pre.map (fun p => (p.1, (p.2.dispatch e).1)) ++
          (tg, { g with idx := (g.idx + 1) % g.consumers.length }) :: post)]⟩,
       some (.Unknown "send failed because receiver is gone")) := by
  have hd := ConsumerGroup.dispatch_closed g e hne hcl
  have hda := dispatchAll_fail_middle e pre hpre tg g
    { g with idx := (g.idx + 1) % g.consumers.length } post
    (.Unknown "send failed because receiver is gone") hd
  simp [BrokerInner.publish, List.lookup, hda, setAssoc]

/-- Witness for C10: tag `"a"` delivered, tag `"b"` fails with the error
surfaced, tag `"c"` untouched. -/
theorem publish_not_atomic_witness :
    BrokerInner.publish
      ⟨[("ch", [("a", ⟨[Endpoint.fresh], 0⟩),
                ("b", ⟨[⟨[], true⟩], 0⟩),
                ("c", ⟨[Endpoint.fresh], 0⟩)])]⟩ "ch" (mkEv "e") =
      (⟨[("ch", [("a", ⟨[⟨[mkEv "e"], false⟩], 0⟩),
                 ("b", ⟨[⟨[], true⟩], 0⟩),
                 ("c", ⟨[Endpoint.fresh], 0⟩)])]⟩,
       some (.Unknown "send failed because receiver is gone")) := by
  have h := publish_not_atomic "ch" "b" (mkEv "e")
    [("a", ⟨[Endpoint.fresh], 0⟩)] [("c", ⟨[Endpoint.fresh], 0⟩)]
    ⟨[⟨[], true⟩], 0⟩
    (by intro p hp; fin_cases hp; rfl)
    (by simp) rfl
  exact h.trans (by rfl)

/-! ## Acknowledger lemmas -/

/-- After any call, the settled flag is set. -/
lemma nack_sets_done (w : AckerWorld) : (InMemoryAcker.nack w).1.done = true := by
  unfold InMemoryAcker.nack
  by_cases hd : w.done
  · simp [hd]
  · simp only [hd, if_false, Bool.false_eq_true]
    by_cases hr : w.acker.requeue
    · simp only [hr, if_true]
      cases hb : w.broker <;> simp
    · simp [hr]

/-- A settled acknowledger ignores both calls: `ack` leaves the world
unchanged and `nack` neither changes the world nor invokes a re-publish. -/
lemma settled_noop (w : AckerWorld) (h : w.done = true) :
    InMemoryAcker.ack w = w ∧ InMemoryAcker.nack w = (w, false) := by
  obtain ⟨a, d, b⟩ := w
  simp only at h
  subst h
  constructor
  · rfl
  · rfl

/-- **C3** (acknowledgment idempotence): whichever settling call comes
first — `ack` or `nack` — every subsequent `ack` or `nack` on the same
acknowledger is a no-op: the world is unchanged and no (second)
re-publish is invoked. -/
theorem ack_settle_idempotent (w w2 : AckerWorld)
    (h : w2 = InMemoryAcker.ack w ∨ w2 = (InMemoryAcker.nack w).1) :
    InMemoryAcker.ack w2 = w2 ∧ InMemoryAcker.nack w2 = (w2, false) := by
  have hdone : w2.done = true := by
    rcases h with h | h
    · subst h
      rfl
    · subst h
      exact nack_sets_done w
  exact settled_noop w2 hdone

/-- Witness for C3: after a first `ack`, both subsequent calls no-op. -/
theorem ack_settle_idempotent_witness :
    InMemoryAcker.ack (InMemoryAcker.ack ⟨⟨"c", mkEv "e", true⟩, false, some BrokerInner.new⟩) =
      InMemoryAcker.ack ⟨⟨"c", mkEv "e", true⟩, false, some BrokerInner.new⟩ ∧
    InMemoryAcker.nack (InMemoryAcker.ack ⟨⟨"c", mkEv "e", true⟩, false, some BrokerInner.new⟩) =
      (InMemoryAcker.ack ⟨⟨"c", mkEv "e", true⟩, false, some BrokerInner.new⟩, false) :=
  ack_settle_idempotent ⟨⟨"c", mkEv "e", true⟩, false, some BrokerInner.new⟩
    (InMemoryAcker.ack ⟨⟨"c", mkEv "e", true⟩, false, some BrokerInner.new⟩) (Or.inl rfl)

/-- **C4** (requeue on first nack): on a first `nack` with requeue enabled
and the engine alive, the acknowledger invokes `BrokerInner::publish` —
the same channel-level entry point the publisher path uses, re-entering
the full multicast-across-tags / round-robin dispatch — with the
originating channel and the identical original event. -/
theorem nack_requeues_at_channel_level (w : AckerWorld) (b : BrokerInner)
    (hdone : w.done = false) (hrq : w.acker.requeue = true) (hb : w.broker = some b) :
    InMemoryAcker.nack w =
      ({ w with
          done := true
          broker := some (b.publish w.acker.channel w.acker.event).1 }, true) := by
  unfold InMemoryAcker.nack
  simp [hdone, hrq, hb]

/-- Witness for C4: first nack on a live fresh engine re-publishes. -/
theorem nack_requeues_witness :
    InMemoryAcker.nack ⟨⟨"c", mkEv "e", true⟩, false, some BrokerInner.new⟩ =
      (⟨⟨"c", mkEv "e", true⟩, true, some BrokerInner.new⟩, true) :=
  (nack_requeues_at_channel_level ⟨⟨"c", mkEv "e", true⟩, false, some BrokerInner.new⟩
    BrokerInner.new rfl rfl rfl).trans (by rfl)

/-- **C8** (ack/nack never fail): both settling calls are total and return
normally in every case — `ack` always, `nack` when already settled, when
requeue is disabled, when the engine has been dropped (`upgrade` fails),
and when the re-publish itself returns an error, which is discarded: the
caller-visible outcome mentions only the post-publish broker state, never
the error. -/
theorem ack_nack_never_fail (w : AckerWorld) :
    InMemoryAcker.ack w = { w with done := true } ∧
    (w.done = true → InMemoryAcker.nack w = (w, false)) ∧
    (w.done = false → w.acker.requeue = false →
      InMemoryAcker.nack w = ({ w with done := true }, false)) ∧
    (w.done = false → w.broker = none →
      InMemoryAcker.nack w = ({ w with done := true }, false)) ∧
    (∀ b er, w.done = false → w.acker.requeue = true → w.broker = some b →
      (b.publish w.acker.channel w.acker.event).2 = some er →
      InMemoryAcker.nack w =
        ({ w with
            done := true
            broker := some (b.publish w.acker.channel w.acker.event).1 }, true)) := by
  refine ⟨rfl, ?_, ?_, ?_, ?_⟩
  · intro h
    exact (settled_noop w h).2
  · intro hd hr
    unfold InMemoryAcker.nack
    simp [hd, hr]
  · intro hd hb
    unfold InMemoryAcker.nack
    by_cases hr : w.acker.requeue
    · simp [hd, hr, hb]
    · simp [hd, hr]
  · intro b er hd hr hb _
    exact nack_requeues_at_channel_level w b hd hr hb

/-- Witness for C8: nack with the engine dropped returns normally; nack
whose re-publish fails (dropped subscriber) also returns normally with the
error swallowed. -/
theorem ack_nack_never_fail_witness :
    InMemoryAcker.nack ⟨⟨"c", mkEv "e", true⟩, false, none⟩ =
      (⟨⟨"c", mkEv "e", true⟩, true, none⟩, false) ∧
    InMemoryAcker.nack ⟨⟨"c", mkEv "e", true⟩, false,
        some ⟨[("c", [("t", ⟨[⟨[], true⟩], 0⟩)])]⟩⟩ =
      (⟨⟨"c", mkEv "e", true⟩, true,
        some ⟨[("c", [("t", ⟨[⟨[], true⟩], 0⟩)])]⟩⟩, true) := by
  constructor
  · exact ((ack_nack_never_fail ⟨⟨"c", mkEv "e", true⟩, false, none⟩).2.2.2.1 rfl rfl).trans
      (by rfl)
  · exact ((ack_nack_never_fail ⟨⟨"c", mkEv "e", true⟩, false,
        some ⟨[("c", [("t", ⟨[⟨[], true⟩], 0⟩)])]⟩⟩).2.2.2.2
      ⟨[("c", [("t", ⟨[⟨[], true⟩], 0⟩)])]⟩
      (.Unknown "send failed because receiver is gone") rfl rfl rfl rfl).trans (by rfl)

/-! ## JSON round-trip: digits, hex and string-escape lemmas -/

/-- The code of a digit character built from a value below 10. -/
lemma digitCh_toNat (n : Nat) (h : n < 10) : (digitCh n).toNat = 48 + n := by
  interval_cases n <;> decide

/-- Digit characters satisfy the digit test. -/
lemma isDigitCh_digitCh (n : Nat) (h : n < 10) : isDigitCh (digitCh n) = true := by
  interval_cases n <;> decide

/-- Every character of `natDigits` is a decimal digit. -/
lemma natDigits_digits (n : Nat) : ∀ c ∈ natDigits n, isDigitCh c = true := by
  induction n using Nat.strong_induction_on with
  | _ n ih =>
    rw [natDigits]
    by_cases h : n < 10
    · simp only [h, if_true]
      intro c hc
      simp only [List.mem_singleton] at hc
      subst hc
      exact isDigitCh_digitCh n h
    · simp only [h, if_false]
      intro c hc
      rcases List.mem_append.mp hc with hc2 | hc2
      · exact ih (n / 10) (Nat.div_lt_self (by omega) (by omega)) c hc2
      · simp only [List.mem_singleton] at hc2
        subst hc2
        exact isDigitCh_digitCh _ (Nat.mod_lt _ (by omega))

/-- `natDigits` never returns the empty list. -/
lemma natDigits_ne_nil (n : Nat) : natDigits n ≠ [] := by
  rw [natDigits]
  split <;> simp

/-- Appending one digit multiplies the accumulated value by ten. -/
lemma digitsToNat_append (ds : List Char) (c : Char) :
    digitsToNat (ds ++ [c]) = digitsToNat ds * 10 + (c.toNat - 48) := by
  simp [digitsToNat, List.foldl_append]

/-- Rendering then reading decimal digits is the identity. -/
lemma digitsToNat_natDigits (n : Nat) : digitsToNat (natDigits n) = n := by
  induction n using Nat.strong_induction_on with
  | _ n ih =>
    rw [natDigits]
    by_cases h : n < 10
    · simp only [h, if_true]
      simp [digitsToNat, digitCh_toNat n h]
    · simp only [h, if_false]
      rw [digitsToNat_append, ih (n / 10) (Nat.div_lt_self (by omega) (by omega)),
        digitCh_toNat _ (Nat.mod_lt _ (by omega))]
      omega

/-- `takeDigits` splits a digit prefix from a non-digit-headed rest. -/
lemma takeDigits_append (ds : List Char) (hds : ∀ c ∈ ds, isDigitCh c = true)
    (rest : List Char) (hrest : ∀ c, rest.head? = some c → isDigitCh c = false) :
    takeDigits (ds ++ rest) = (ds, rest) := by
  induction ds with
  | nil =>
    cases rest with
    | nil => rfl
    | cons r t =>
      simp [takeDigits, hrest r rfl]
  | cons c cs ih =>
    have h1 : isDigitCh c = true := hds c (by simp)
    have h2 := ih (fun x hx => hds x (by simp [hx]))
    simp [takeDigits, h1, h2]

/-- Hex digit round trip for values below 16. -/
lemma hexDigitVal_hexDigitCh : ∀ n < 16, hexDigitVal (hexDigitCh n) = some n := by
  decide

/-- String parser step: a closing quote ends the literal. -/
lemma psa_quote (rest acc : List Char) :
    parseStringAux ('"' :: rest) acc = some (acc, rest) := by
  simp [parseStringAux]

/-- String parser step: a backslash consumes one decodable escape. -/
lemma psa_esc (rest acc : List Char) (d : Char) (rest2 : List Char)
    (h : parseEscape rest = some (d, rest2)) :
    parseStringAux ('\\' :: rest) acc = parseStringAux rest2 (acc ++ [d]) := by
  simp only [parseStringAux]
  rw [if_neg (by decide), if_pos trivial]
  split
  · rename_i d2 rest2b heq
    rw [h] at heq
    injection heq with hh
    injection hh with hh1 hh2
    subst hh1
    subst hh2
    rfl
  · rename_i heq
    rw [h] at heq
    cases heq

/-- String parser step: a plain character is copied to the body. -/
lemma psa_raw (c : Char) (rest acc : List Char) (h1 : c ≠ '"') (h2 : c ≠ '\\')
    (h3 : ¬c.toNat < 32) :
    parseStringAux (c :: rest) acc = parseStringAux rest (acc ++ [c]) := by
  simp [parseStringAux, h1, h2, h3]

/-- `parseEscape` decodes exactly what `escapeChar` encodes: either the
character passes through raw, or its escape body decodes back to it. -/
lemma escapeChar_cases (c : Char) :
    (escapeChar c = [c] ∧ c ≠ '"' ∧ c ≠ '\\' ∧ ¬c.toNat < 32) ∨
    (∃ body, escapeChar c = '\\' :: body ∧
      ∀ tail, parseEscape (body ++ tail) = some (c, tail)) := by
  by_cases h1 : c = '"'
  · subst h1
    exact Or.inr ⟨['"'], rfl, fun tail => by simp [parseEscape]⟩
  by_cases h2 : c = '\\'
  · subst h2
    exact Or.inr ⟨['\\'], by simp [escapeChar], fun tail => by simp [parseEscape]⟩
  by_cases h3 : c = Char.ofNat 8
  · subst h3
    exact Or.inr ⟨['b'], by simp [escapeChar], fun tail => by simp [parseEscape]⟩
  by_cases h4 : c = Char.ofNat 9
  · subst h4
    exact Or.inr ⟨['t'], by simp [escapeChar], fun tail => by simp [parseEscape]⟩
  by_cases h5 : c = Char.ofNat 10
  · subst h5
    exact Or.inr ⟨['n'], by simp [escapeChar], fun tail => by simp [parseEscape]⟩
  by_cases h6 : c = Char.ofNat 12
  · subst h6
    exact Or.inr ⟨['f'], by simp [escapeChar], fun tail => by simp [parseEscape]⟩
  by_cases h7 : c = Char.ofNat 13
  · subst h7
    exact Or.inr ⟨['r'], by simp [escapeChar], fun tail => by simp [parseEscape]⟩
  by_cases h8 : c.toNat < 32
  · refine Or.inr ⟨['u', '0', '0', hexDigitCh (c.toNat / 16), hexDigitCh (c.toNat % 16)],
      by simp [escapeChar, h1, h2, h3, h4, h5, h6, h7, h8], ?_⟩
    intro tail
    have hv1 := hexDigitVal_hexDigitCh (c.toNat / 16) (by omega)
    have hv2 := hexDigitVal_hexDigitCh (c.toNat % 16) (by omega)
    have hv0 : hexDigitVal '0' = some 0 := rfl
    have hcode : ((0 * 16 + 0) * 16 + c.toNat / 16) * 16 + c.toNat % 16 = c.toNat := by
      omega
    have hcode2 : c.toNat / 16 * 16 + c.toNat % 16 = c.toNat := by
      omega
    have hlt : c.toNat < 55296 := by omega
    simp [parseEscape, parseHex4, hv0, hv1, hv2, hcode, hcode2, hlt, Char.ofNat_toNat]
  · exact Or.inl ⟨by simp [escapeChar, h1, h2, h3, h4, h5, h6, h7, h8], h1, h2, h8⟩

/-- Unescaping what `escapeChar` produced recovers the original body:
the string-literal parser applied to an escaped body followed by the
closing quote returns the body and the rest of the input. -/
lemma parseStringAux_escape : ∀ (l acc rest : List Char),
    parseStringAux (escapeList l ++ '"' :: rest) acc = some (acc ++ l, rest) := by
  intro l
  induction l with
  | nil =>
    intro acc rest
    simp [escapeList, psa_quote]
  | cons c cs ih =>
    intro acc rest
    have hstep : escapeList (c :: cs) ++ '"' :: rest =
        escapeChar c ++ (escapeList cs ++ '"' :: rest) := by
      simp [escapeList]
    rw [hstep]
    rcases escapeChar_cases c with ⟨heq, h1, h2, h3⟩ | ⟨body, heq, hdec⟩
    · rw [heq, List.singleton_append,
        psa_raw c _ acc h1 h2 h3, ih]
      simp
    · rw [heq, List.cons_append,
        psa_esc _ acc c _ (hdec (escapeList cs ++ '"' :: rest)), ih]
      simp

/-! ## JSON round-trip: the main induction -/

mutual
/-- Parser fuel sufficient for one value. -/
def needVal : Json → Nat
  | .arr xs => needItems xs + 1
  | .obj kvs => needFields kvs + 1
  | _ => 1

/-- Parser fuel sufficient for an array item list. -/
def needItems : List Json → Nat
  | [] => 0
  | x :: xs => needVal x + needItems xs + 1

/-- Parser fuel sufficient for an object field list. -/
def needFields : List (String × Json) → Nat
  | [] => 0
  | (_, v) :: kvs => needVal v + needFields kvs + 1
end

/-- Every value needs at least one unit of fuel. -/
lemma needVal_pos (v : Json) : 1 ≤ needVal v := by
  cases v <;> simp [needVal]

/-- Rebuilding a string from its character data is the identity. -/
lemma stringMk_data (s : String) : String.mk s.data = s := by
  cases s
  rfl

/-- `rest` does not begin with a decimal digit (so a rendered number
followed by `rest` parses back to exactly that number). -/
def noDigitHead (cs : List Char) : Prop :=
  ∀ c, cs.head? = some c → isDigitCh c = false

/-- A digit character is none of the keyword or sign lead characters. -/
lemma digit_notKeyword (c : Char) (hc : isDigitCh c = true) :
    ¬c = 'n' ∧ ¬c = 't' ∧ ¬c = 'f' ∧ ¬c = '"' ∧ ¬c = '-' := by
  refine ⟨?_, ?_, ?_, ?_, ?_⟩ <;> (intro h; subst h; exact absurd hc (by decide))

/-- The rendering of any value is non-empty and never starts with a
closing bracket or closing brace. -/
lemma render_head (v : Json) :
    ∃ c t, Json.render v = c :: t ∧ ¬c = ']' ∧ ¬c = Char.ofNat 125 := by
  cases v with
  | null => exact ⟨'n', _, rfl, by decide, by decide⟩
  | bool b =>
    cases b
    · exact ⟨'f', _, rfl, by decide, by decide⟩
    · exact ⟨'t', _, rfl, by decide, by decide⟩
  | num n =>
    rcases hnd : natDigits n.natAbs with _ | ⟨c0, ds0⟩
    · exact absurd hnd (natDigits_ne_nil _)
    · have hc0 : isDigitCh c0 = true := natDigits_digits _ c0 (by rw [hnd]; simp)
      by_cases hneg : n < 0
      · exact ⟨'-', natDigits n.natAbs, by simp [Json.render, intChars, hneg],
          by decide, by decide⟩
      · refine ⟨c0, ds0, by simp [Json.render, intChars, hneg, hnd], ?_, ?_⟩
        · intro h
          subst h
          exact absurd hc0 (by decide)
        · intro h
          subst h
          exact absurd hc0 (by decide)
  | str s => exact ⟨'"', _, rfl, by decide, by decide⟩
  | arr xs => exact ⟨'[', _, rfl, by decide, by decide⟩
  | obj kvs => exact ⟨Char.ofNat 123, _, rfl, by decide, by decide⟩

/-- Value parser step at a digit: the whole digit run is consumed. -/
lemma parseVal_digit (fuel : Nat) (c : Char) (tail : List Char) (hc : isDigitCh c = true) :
    parseVal (fuel + 1) (c :: tail) =
      some (.num (digitsToNat (takeDigits (c :: tail)).1), (takeDigits (c :: tail)).2) := by
  obtain ⟨h1, h2, h3, h4, h5⟩ := digit_notKeyword c hc
  simp only [parseVal]
  rw [if_neg h1, if_neg h2, if_neg h3, if_neg h4, if_neg h5, if_pos hc]

/-- Value parser step at a minus sign followed by a digit. -/
lemma parseVal_minus (fuel : Nat) (d : Char) (tail : List Char) (hd : isDigitCh d = true) :
    parseVal (fuel + 1) ('-' :: d :: tail) =
      some (.num (-(digitsToNat (takeDigits (d :: tail)).1 : Int)),
        (takeDigits (d :: tail)).2) := by
  simp only [parseVal]
  rw [if_neg (by decide), if_neg (by decide), if_neg (by decide), if_neg (by decide),
    if_pos trivial, if_pos hd]

/-- Value parser step: `null`. -/
lemma parseVal_null (fuel : Nat) (tail : List Char) :
    parseVal (fuel + 1) ('n' :: 'u' :: 'l' :: 'l' :: tail) = some (.null, tail) := rfl

/-- Value parser step: `true`. -/
lemma parseVal_true (fuel : Nat) (tail : List Char) :
    parseVal (fuel + 1) ('t' :: 'r' :: 'u' :: 'e' :: tail) = some (.bool true, tail) := rfl

/-- Value parser step: `false`. -/
lemma parseVal_false (fuel : Nat) (tail : List Char) :
    parseVal (fuel + 1) ('f' :: 'a' :: 'l' :: 's' :: 'e' :: tail) =
      some (.bool false, tail) := rfl

/-- Value parser step: a string literal. -/
lemma parseVal_quote (fuel : Nat) (tail : List Char) :
    parseVal (fuel + 1) ('"' :: tail) =
      (match parseStringAux tail [] with
       | some (body, r) => some (.str (String.mk body), r)
       | none => none) := rfl

/-- Value parser step: an array opener with a non-empty remainder. -/
lemma parseVal_lbracket_cons (fuel : Nat) (r0 : Char) (r1 : List Char) :
    parseVal (fuel + 1) ('[' :: r0 :: r1) =
      (if r0 = ']' then some (.arr [], r1)
       else
         match parseArrItems fuel (r0 :: r1) with
         | some (xs, r) => some (.arr xs, r)
         | none => none) := rfl

/-- Value parser step: an object opener with a non-empty remainder. -/
lemma parseVal_lbrace_cons (fuel : Nat) (r0 : Char) (r1 : List Char) :
    parseVal (fuel + 1) (Char.ofNat 123 :: r0 :: r1) =
      (if r0 = Char.ofNat 125 then some (.obj [], r1)
       else
         match parseObjItems fuel (r0 :: r1) with
         | some (kvs, r) => some (.obj kvs, r)
         | none => none) := rfl

/-- Item parser step. -/
lemma parseArrItems_succ (fuel : Nat) (cs : List Char) :
    parseArrItems (fuel + 1) cs =
      (match parseVal fuel cs with
       | some (x, d :: r) =>
         if d = ',' then
           match parseArrItems fuel r with
           | some (xs, r2) => some (x :: xs, r2)
           | none => none
         else if d = ']' then some ([x], r)
         else none
       | _ => none) := rfl

/-- Field parser step. -/
lemma parseObjItems_succ (fuel : Nat) (q : Char) (tail : List Char) :
    parseObjItems (fuel + 1) (q :: tail) =
      (if q = '"' then
        match parseStringAux tail [] with
        | some (key, d :: r) =>
          if d = ':' then
            match parseVal fuel r with
            | some (v, d2 :: r2) =>
              if d2 = ',' then
                match parseObjItems fuel r2 with
                | some (kvs, r3) => some ((String.mk key, v) :: kvs, r3)
                | none => none
              else if d2 = Char.ofNat 125 then some ([(String.mk key, v)], r2)
              else none
            | _ => none
          else none
        | _ => none
      else none) := rfl

/-- Parsing inverts rendering: with fuel at least the value's need, the
value parser consumes exactly the rendering and returns the value; the
same holds for non-empty item and field lists followed by their closing
delimiter. -/
lemma parse_render_all (fuel : Nat) :
    (∀ v rest, needVal v ≤ fuel → noDigitHead rest →
      parseVal fuel (Json.render v ++ rest) = some (v, rest)) ∧
    (∀ x xs rest, needItems (x :: xs) ≤ fuel →
      parseArrItems fuel (renderArr (x :: xs) ++ ']' :: rest) = some (x :: xs, rest)) ∧
    (∀ k v kvs rest, needFields ((k, v) :: kvs) ≤ fuel →
      parseObjItems fuel (renderObj ((k, v) :: kvs) ++ Char.ofNat 125 :: rest) =
        some ((k, v) :: kvs, rest)) := by
  induction fuel with
  | zero =>
    refine ⟨?_, ?_, ?_⟩
    · intro v rest hn _
      have := needVal_pos v
      omega
    · intro x xs rest hn
      exfalso
      have h1 := needVal_pos x
      have h2 : needItems (x :: xs) = needVal x + needItems xs + 1 := by
        simp [needItems]
      omega
    · intro k v kvs rest hn
      exfalso
      have h1 := needVal_pos v
      have h2 : needFields ((k, v) :: kvs) = needVal v + needFields kvs + 1 := by
        simp [needFields]
      omega
  | succ fuel ih =>
    obtain ⟨ihV, ihA, ihO⟩ := ih
    refine ⟨?_, ?_, ?_⟩
    · intro v rest hn hrest
      cases v with
      | null =>
        have hr : Json.render .null ++ rest = 'n' :: 'u' :: 'l' :: 'l' :: rest := rfl
        rw [hr, parseVal_null]
      | bool b =>
        cases b
        · have hr : Json.render (.bool false) ++ rest =
              'f' :: 'a' :: 'l' :: 's' :: 'e' :: rest := rfl
          rw [hr, parseVal_false]
        · have hr : Json.render (.bool true) ++ rest =
              't' :: 'r' :: 'u' :: 'e' :: rest := rfl
          rw [hr, parseVal_true]
      | num n =>
        rcases hnd : natDigits n.natAbs with _ | ⟨c0, ds0⟩
        · exact absurd hnd (natDigits_ne_nil _)
        have hc0 : isDigitCh c0 = true := natDigits_digits _ c0 (by rw [hnd]; simp)
        have hdigits : ∀ c ∈ c0 :: ds0, isDigitCh c = true := by
          rw [← hnd]
          exact natDigits_digits _
        have htd : takeDigits (c0 :: (ds0 ++ rest)) = (c0 :: ds0, rest) := by
          have h0 := takeDigits_append (c0 :: ds0) hdigits rest hrest
          simpa using h0
        have hval : digitsToNat (c0 :: ds0) = n.natAbs := by
          rw [← hnd, digitsToNat_natDigits]
        by_cases hneg : n < 0
        · have hr : Json.render (.num n) ++ rest = '-' :: c0 :: (ds0 ++ rest) := by
            simp [Json.render, intChars, hneg, hnd]
          rw [hr, parseVal_minus fuel c0 (ds0 ++ rest) hc0, htd]
          have hn2 : -((digitsToNat (c0 :: ds0) : Nat) : Int) = n := by
            rw [hval]
            omega
          rw [hn2]
        · have hr : Json.render (.num n) ++ rest = c0 :: (ds0 ++ rest) := by
            simp [Json.render, intChars, hneg, hnd]
          rw [hr, parseVal_digit fuel c0 (ds0 ++ rest) hc0, htd]
          have hn2 : ((digitsToNat (c0 :: ds0) : Nat) : Int) = n := by
            rw [hval]
            omega
          rw [hn2]
      | str s =>
        have hr : Json.render (.str s) ++ rest = '"' :: (escapeList s.data ++ '"' :: rest) := by
          simp [Json.render, renderStringChars]
        rw [hr, parseVal_quote, parseStringAux_escape s.data [] rest]
        simp [stringMk_data]
      | arr xs =>
        cases xs with
        | nil =>
          have hr : Json.render (.arr []) ++ rest = '[' :: ']' :: rest := rfl
          rw [hr]
          exact (parseVal_lbracket_cons fuel ']' rest).trans (if_pos rfl)
        | cons x xs2 =>
          obtain ⟨c0, t0, hR, hc1, hc2⟩ := render_head x
          have ht1 : ∃ t1, renderArr (x :: xs2) = c0 :: t1 := by
            cases xs2 with
            | nil => exact ⟨t0, by simp [renderArr, hR]⟩
            | cons y ys => exact ⟨t0 ++ ',' :: renderArr (y :: ys), by simp [renderArr, hR]⟩
          obtain ⟨t1, ht1⟩ := ht1
          have hr : Json.render (.arr (x :: xs2)) ++ rest =
              '[' :: c0 :: (t1 ++ ']' :: rest) := by
            have : Json.render (.arr (x :: xs2)) = '[' :: (renderArr (x :: xs2) ++ [']']) := rfl
            rw [this, ht1]
            simp
          rw [hr, parseVal_lbracket_cons, if_neg hc1]
          have harr : c0 :: (t1 ++ ']' :: rest) = renderArr (x :: xs2) ++ ']' :: rest := by
            rw [ht1]
            simp
          have hfuel : needItems (x :: xs2) ≤ fuel := by
            have : needVal (.arr (x :: xs2)) = needItems (x :: xs2) + 1 := by
              simp [needVal]
            omega
          rw [harr, ihA x xs2 rest hfuel]
      | obj kvs =>
        cases kvs with
        | nil =>
          have hr : Json.render (.obj []) ++ rest =
              Char.ofNat 123 :: Char.ofNat 125 :: rest := rfl
          rw [hr]
          exact (parseVal_lbrace_cons fuel (Char.ofNat 125) rest).trans (if_pos rfl)
        | cons kv kvs2 =>
          rcases kv with ⟨k, v⟩
          have ht1 : ∃ t1, renderObj ((k, v) :: kvs2) = '"' :: t1 := by
            cases kvs2 with
            | nil =>
              exact ⟨escapeList k.data ++ ['"'] ++ ':' :: Json.render v,
                by simp [renderObj, renderStringChars]⟩
            | cons p ps =>
              exact ⟨escapeList k.data ++ ['"'] ++ ':' :: Json.render v ++
                ',' :: renderObj (p :: ps), by simp [renderObj, renderStringChars]⟩
          obtain ⟨t1, ht1⟩ := ht1
          have hr : Json.render (.obj ((k, v) :: kvs2)) ++ rest =
              Char.ofNat 123 :: '"' :: (t1 ++ Char.ofNat 125 :: rest) := by
            have : Json.render (.obj ((k, v) :: kvs2)) =
                Char.ofNat 123 :: (renderObj ((k, v) :: kvs2) ++ [Char.ofNat 125]) := rfl
            rw [this, ht1]
            simp
          rw [hr, parseVal_lbrace_cons, if_neg (by decide)]
          have hobj : '"' :: (t1 ++ Char.ofNat 125 :: rest) =
              renderObj ((k, v) :: kvs2) ++ Char.ofNat 125 :: rest := by
            rw [ht1]
            simp
          have hfuel : needFields ((k, v) :: kvs2) ≤ fuel := by
            have : needVal (.obj ((k, v) :: kvs2)) = needFields ((k, v) :: kvs2) + 1 := by
              simp [needVal]
            omega
          rw [hobj, ihO k v kvs2 rest hfuel]
    · intro x xs rest hn
      have hneed : needVal x + needItems xs + 1 ≤ fuel + 1 := by
        have : needItems (x :: xs) = needVal x + needItems xs + 1 := by
          simp [needItems]
        omega
      cases xs with
      | nil =>
        have hV := ihV x (']' :: rest) (by omega)
          (by intro c hc; injection hc with hc; subst hc; decide)
        have hr : renderArr [x] ++ ']' :: rest = Json.render x ++ ']' :: rest := by
          simp [renderArr]
        rw [hr, parseArrItems_succ, hV]
        rfl
      | cons y ys =>
        have hV := ihV x (',' :: (renderArr (y :: ys) ++ ']' :: rest))
          (by omega)
          (by intro c hc; injection hc with hc; subst hc; decide)
        have hA := ihA y ys rest (by
          have : needItems (y :: ys) = needVal y + needItems ys + 1 := by
            simp [needItems]
          have h2 : needItems (x :: y :: ys) =
              needVal x + needItems (y :: ys) + 1 := by
            simp [needItems]
          omega)
        have hr : renderArr (x :: y :: ys) ++ ']' :: rest =
            Json.render x ++ (',' :: (renderArr (y :: ys) ++ ']' :: rest)) := by
          have : renderArr (x :: y :: ys) =
              Json.render x ++ ',' :: renderArr (y :: ys) := by
            simp [renderArr]
          rw [this]
          simp
        rw [hr, parseArrItems_succ, hV]
        show (match parseArrItems fuel (renderArr (y :: ys) ++ ']' :: rest) with
          | some (xs, r2) => some (x :: xs, r2)
          | none => none) = some (x :: y :: ys, rest)
        rw [hA]
    · intro k v kvs rest hn
      have hneed : needVal v + needFields kvs + 1 ≤ fuel + 1 := by
        have : needFields ((k, v) :: kvs) = needVal v + needFields kvs + 1 := by
          simp [needFields]
        omega
      cases kvs with
      | nil =>
        have hV := ihV v (Char.ofNat 125 :: rest) (by omega)
          (by intro c hc; injection hc with hc; subst hc; decide)
        have hr : renderObj [(k, v)] ++ Char.ofNat 125 :: rest =
            '"' :: (escapeList k.data ++ '"' ::
              (':' :: (Json.render v ++ Char.ofNat 125 :: rest))) := by
          simp [renderObj, renderStringChars]
        rw [hr, parseObjItems_succ, if_pos rfl,
          parseStringAux_escape k.data [] (':' :: (Json.render v ++ Char.ofNat 125 :: rest))]
        simp only [List.nil_append]
        show (match parseVal fuel (Json.render v ++ Char.ofNat 125 :: rest) with
          | some (v2, d2 :: r2) =>
            if d2 = ',' then
              match parseObjItems fuel r2 with
              | some (kvs, r3) => some ((String.mk k.data, v2) :: kvs, r3)
              | none => none
            else if d2 = Char.ofNat 125 then some ([(String.mk k.data, v2)], r2)
            else none
          | _ => none) = some ([(k, v)], rest)
        rw [hV]
        simp [stringMk_data]
      | cons p ps =>
        rcases p with ⟨k2, v2⟩
        have hV := ihV v (',' :: (renderObj ((k2, v2) :: ps) ++ Char.ofNat 125 :: rest))
          (by omega)
          (by intro c hc; injection hc with hc; subst hc; decide)
        have hO := ihO k2 v2 ps rest (by
          have : needFields ((k, v) :: (k2, v2) :: ps) =
              needVal v + needFields ((k2, v2) :: ps) + 1 := by
            simp [needFields]
          omega)
        have hr : renderObj ((k, v) :: (k2, v2) :: ps) ++ Char.ofNat 125 :: rest =
            '"' :: (escapeList k.data ++ '"' ::
              (':' :: (Json.render v ++
                (',' :: (renderObj ((k2, v2) :: ps) ++ Char.ofNat 125 :: rest))))) := by
          simp [renderObj, renderStringChars]
        rw [hr, parseObjItems_succ, if_pos rfl,
          parseStringAux_escape k.data []
            (':' :: (Json.render v ++
              (',' :: (renderObj ((k2, v2) :: ps) ++ Char.ofNat 125 :: rest))))]
        simp only [List.nil_append]
        show (match parseVal fuel (Json.render v ++
            (',' :: (renderObj ((k2, v2) :: ps) ++ Char.ofNat 125 :: rest))) with
          | some (v3, d2 :: r2) =>
            if d2 = ',' then
              match parseObjItems fuel r2 with
              | some (kvs, r3) => some ((String.mk k.data, v3) :: kvs, r3)
              | none => none
            else if d2 = Char.ofNat 125 then some ([(String.mk k.data, v3)], r2)
            else none
          | _ => none) = some ((k, v) :: (k2, v2) :: ps, rest)
        rw [hV]
        show (match parseObjItems fuel (renderObj ((k2, v2) :: ps) ++ Char.ofNat 125 :: rest) with
          | some (kvs, r3) => some ((String.mk k.data, v) :: kvs, r3)
          | none => none) = some ((k, v) :: (k2, v2) :: ps, rest)
        rw [hO]

/-- Renderings are non-empty. -/
lemma render_length_pos (v : Json) : 1 ≤ (Json.render v).length := by
  obtain ⟨c, t, h, -, -⟩ := render_head v
  rw [h]
  simp

/-- Every JSON value has positive size. -/
lemma json_sizeOf_pos (v : Json) : 1 ≤ sizeOf v := by
  cases v <;> simp

/-- Fuel bounded by rendering length: the parser fuel a value needs never
exceeds the length of its rendering (plus one for lists). -/
lemma need_le_render_aux (n : Nat) :
    (∀ v : Json, sizeOf v ≤ n → needVal v ≤ (Json.render v).length) ∧
    (∀ xs : List Json, sizeOf xs ≤ n → needItems xs ≤ (renderArr xs).length + 1) ∧
    (∀ kvs : List (String × Json), sizeOf kvs ≤ n →
      needFields kvs ≤ (renderObj kvs).length + 1) := by
  induction n with
  | zero =>
    refine ⟨?_, ?_, ?_⟩
    · intro v hv
      have := json_sizeOf_pos v
      omega
    · intro xs hxs
      have : 1 ≤ sizeOf xs := by cases xs <;> simp <;> omega
      omega
    · intro kvs hkvs
      have : 1 ≤ sizeOf kvs := by cases kvs <;> simp <;> omega
      omega
  | succ n ih =>
    obtain ⟨ihV, ihA, ihO⟩ := ih
    refine ⟨?_, ?_, ?_⟩
    · intro v hv
      cases v with
      | null => simp [needVal, Json.render]
      | bool b => cases b <;> simp [needVal, Json.render]
      | num m =>
        have := render_length_pos (.num m)
        have h2 : needVal (.num m) = 1 := by simp [needVal]
        omega
      | str s =>
        have := render_length_pos (.str s)
        have h2 : needVal (.str s) = 1 := by simp [needVal]
        omega
      | arr xs =>
        have hsz : sizeOf (Json.arr xs) = 1 + sizeOf xs := by simp
        have h2 := ihA xs (by omega)
        have hlen : (Json.render (.arr xs)).length = (renderArr xs).length + 2 := by
          have h3 : Json.render (.arr xs) = '[' :: (renderArr xs ++ [']']) := rfl
          rw [h3]
          simp
        have h4 : needVal (.arr xs) = needItems xs + 1 := by simp [needVal]
        omega
      | obj kvs =>
        have hsz : sizeOf (Json.obj kvs) = 1 + sizeOf kvs := by simp
        have h2 := ihO kvs (by omega)
        have hlen : (Json.render (.obj kvs)).length = (renderObj kvs).length + 2 := by
          have h3 : Json.render (.obj kvs) =
              Char.ofNat 123 :: (renderObj kvs ++ [Char.ofNat 125]) := rfl
          rw [h3]
          simp
        have h4 : needVal (.obj kvs) = needFields kvs + 1 := by simp [needVal]
        omega
    · intro xs hxs
      cases xs with
      | nil =>
        simp [needItems, renderArr]
      | cons x ys =>
        have hsz : sizeOf (x :: ys) = 1 + sizeOf x + sizeOf ys := by simp
        have h1 := ihV x (by omega)
        have hyp : 1 ≤ sizeOf x := json_sizeOf_pos x
        cases ys with
        | nil =>
          have hr : renderArr [x] = Json.render x := by simp [renderArr]
          have h3 : needItems [x] = needVal x + 1 := by simp [needItems]
          rw [hr, h3]
          omega
        | cons y ys2 =>
          have h2 := ihA (y :: ys2) (by omega)
          have hr : renderArr (x :: y :: ys2) =
              Json.render x ++ ',' :: renderArr (y :: ys2) := by
            simp [renderArr]
          have h3 : needItems (x :: y :: ys2) =
              needVal x + needItems (y :: ys2) + 1 := by
            simp [needItems]
          rw [hr, h3]
          simp only [List.length_append, List.length_cons]
          omega
    · intro kvs hkvs
      cases kvs with
      | nil =>
        simp [needFields, renderObj]
      | cons kv ps =>
        rcases kv with ⟨k, v⟩
        have hsz : sizeOf ((k, v) :: ps) = 1 + (1 + sizeOf k + sizeOf v) + sizeOf ps := by
          simp
        have h1 := ihV v (by omega)
        cases ps with
        | nil =>
          have hr : renderObj [(k, v)] = renderStringChars k ++ ':' :: Json.render v := by
            simp [renderObj]
          have h3 : needFields [(k, v)] = needVal v + 1 := by simp [needFields]
          rw [hr, h3]
          simp only [List.length_append, List.length_cons]
          omega
        | cons p ps2 =>
          have h2 := ihO (p :: ps2) (by omega)
          have hr : renderObj ((k, v) :: p :: ps2) =
              renderStringChars k ++ ':' :: Json.render v ++ ',' :: renderObj (p :: ps2) := by
            simp [renderObj]
          have h3 : needFields ((k, v) :: p :: ps2) =
              needVal v + needFields (p :: ps2) + 1 := by
            simp [needFields]
          rw [hr, h3]
          simp only [List.length_append, List.length_cons]
          omega

/-- Round trip at the document level: parsing the rendering of any value
yields exactly that value. -/
lemma jsonParse_render (v : Json) : jsonParse (Json.render v) = some v := by
  unfold jsonParse
  have hle := (need_le_render_aux (sizeOf v)).1 v (Nat.le_refl _)
  have h := (parse_render_all ((Json.render v).length + 1)).1 v []
    (by omega) (by intro c hc; simp at hc)
  rw [List.append_nil] at h
  rw [h]

/-- A successful typed build stores the structured payload. -/
lemma build_data (b : EventBuilder) (value : Json) (eventType : String) (ev : Event)
    (h : b.build value eventType = .ok ev) :
    ev.inner.data = some (.json value) := by
  unfold EventBuilder.build at h
  rcases hb : b.error with _ | err
  · rw [hb] at h
    simp only at h
    rcases hs : b.schema_url with _ | url <;> rw [hs] at h <;>
      simp only [CloudEventBuilderV10.data_, CloudEventBuilderV10.data_with_schema] at h <;>
      unfold CloudEventBuilderV10.buildInner at h <;>
      rcases hid : b.inner.id with _ | i <;> rw [hid] at h <;>
      rcases hsrc : b.inner.source with _ | src <;> rw [hsrc] at h <;>
      simp only at h <;>
      cases h <;> rfl
  · rw [hb] at h
    cases h

/-- **C5** (event round trip): for every Event built from a structured
payload (already structurally encoded as `value`) via the typed builder,
`data_as_bytes` returns exactly the serialized bytes of `value`,
re-parsing those bytes yields `value` back, `data_as_value` on the event
itself returns `value`, and any event storing exactly those raw bytes
also reads back as `value`. -/
theorem event_round_trip (b : EventBuilder) (value : Json) (eventType : String) (ev : Event)
    (h : b.build value eventType = .ok ev) :
    ev.data_as_bytes = .ok (to_vec value) ∧
    jsonParse (to_vec value) = some value ∧
    ev.data_as_value = .ok value ∧
    (∀ ev2 : Event, ev2.inner.data = some (.binary (to_vec value)) →
      ev2.data_as_value = .ok value) := by
  have hd := build_data b value eventType ev h
  have hp : jsonParse (to_vec value) = some value := jsonParse_render value
  refine ⟨?_, hp, ?_, ?_⟩
  · simp [Event.data_as_bytes, hd]
  · simp [Event.data_as_value, hd]
  · intro ev2 h2
    simp [Event.data_as_value, h2, hp]

/-- Concrete event with structured payload, used by the C5 witness. -/
def evJson42 : Event :=
  ⟨{ id := "i"
     source := "s"
     ty := "T"
     datacontenttype := some "application/json"
     data := some (.json (.obj [("k", .num 42)])) }⟩

/-- Concrete event whose raw payload bytes are not valid JSON. -/
def evHello : Event :=
  ⟨{ id := "i"
     source := "s"
     ty := "t"
     datacontenttype := some "application/json"
     data := some (.binary ("hello".data)) }⟩

/-- Concrete event with a structured payload, for the C6 witness. -/
def evObjA : Event :=
  ⟨{ id := "i"
     source := "s"
     ty := "t"
     data := some (.json (.obj [("a", .num 1)])) }⟩

/-- Concrete event whose text payload is valid JSON. -/
def evStrArr : Event :=
  ⟨{ id := "i"
     source := "s"
     ty := "t"
     data := some (.string "[1,2]") }⟩

/-- Concrete event whose text payload is not valid JSON. -/
def evStrHello : Event :=
  ⟨{ id := "i"
     source := "s"
     ty := "t"
     data := some (.string "hello") }⟩

/-- Witness for C5 at payload `{"k":42}` built with id and source set. -/
theorem event_round_trip_witness :
    ((EventBuilder.new.id "i").source "s").build (.obj [("k", .num 42)]) "T" =
      .ok evJson42 ∧
    evJson42.data_as_bytes = .ok (to_vec (.obj [("k", .num 42)])) ∧
    jsonParse (to_vec (.obj [("k", .num 42)])) = some (.obj [("k", .num 42)]) := by
  refine ⟨rfl, ?_, ?_⟩
  · exact (event_round_trip ((EventBuilder.new.id "i").source "s") (.obj [("k", .num 42)])
      "T" evJson42 rfl).1
  · exact (event_round_trip ((EventBuilder.new.id "i").source "s") (.obj [("k", .num 42)])
      "T" evJson42 rfl).2.1

/-- An event whose payload is the raw bytes of `"hello"` — constructed
through `build_raw` — is a counterexample to C6 as stated: `data_as_bytes`
succeeds but `data_as_value` fails with a `Deserialization` error (and
`data_as_string` with a `Serialization` error), because the stored bytes
are not valid JSON. -/
theorem data_accessors_counterexample :
    (((EventBuilder.new.id "i").source "s").type_ "t").build_raw ("hello".data) =
      .ok evHello ∧
    evHello.data_as_bytes = .ok ("hello".data) ∧
    evHello.data_as_value = .error (.Deserialization "invalid JSON") := by
  refine ⟨rfl, rfl, ?_⟩
  rfl

/-- **C6 amended**: for every Event with a non-absent payload,
`data_as_bytes` always succeeds and returns the underlying bytes exactly
(the stored bytes for the binary variant, the text's characters for the
text variant, the serialization of the value for the structured variant).
For the structured variant `data_as_value` and `data_as_string` succeed
unconditionally, and the bytes parse back to the stored value, so no
information is lost.  For the binary variant `data_as_value` and
`data_as_string` succeed exactly when the stored bytes parse as JSON,
failing with `Deserialization` and `Serialization` respectively otherwise.
For the text variant `data_as_string` succeeds unconditionally, returning
the stored text as event.rs line 135 does, while `data_as_value` succeeds
exactly when the text parses as JSON and fails with `Deserialization`
otherwise. -/
theorem data_accessors_amended (ev : Event) (d : CloudEventData)
    (h : ev.inner.data = some d) :
    (∃ bs, ev.data_as_bytes = .ok bs) ∧
    (∀ v, d = .json v →
      ev.data_as_bytes = .ok (to_vec v) ∧
      ev.data_as_value = .ok v ∧
      ev.data_as_string = .ok (jsonToString v) ∧
      to_vec v = (jsonToString v).data ∧
      jsonParse (to_vec v) = some v) ∧
    (∀ bs, d = .binary bs →
      ev.data_as_bytes = .ok bs ∧
      (∀ v, jsonParse bs = some v →
        ev.data_as_value = .ok v ∧ ev.data_as_string = .ok (jsonToString v)) ∧
      (jsonParse bs = none →
        ev.data_as_value = .error (.Deserialization "invalid JSON") ∧
        ev.data_as_string = .error (.Serialization "invalid JSON"))) ∧
    (∀ s, d = .string s →
      ev.data_as_bytes = .ok s.data ∧
      ev.data_as_string = .ok s ∧
      (∀ v, jsonParse s.data = some v → ev.data_as_value = .ok v) ∧
      (jsonParse s.data = none →
        ev.data_as_value = .error (.Deserialization "invalid JSON"))) := by
  refine ⟨?_, ?_, ?_, ?_⟩
  · cases d with
    | binary bs => exact ⟨bs, by simp [Event.data_as_bytes, h]⟩
    | json v => exact ⟨to_vec v, by simp [Event.data_as_bytes, h]⟩
    | string s => exact ⟨s.data, by simp [Event.data_as_bytes, h]⟩
  · intro v hv
    subst hv
    refine ⟨by simp [Event.data_as_bytes, h], by simp [Event.data_as_value, h],
      by simp [Event.data_as_string, h], rfl, jsonParse_render v⟩
  · intro bs hbs
    subst hbs
    refine ⟨by simp [Event.data_as_bytes, h], ?_, ?_⟩
    · intro v hv
      constructor
      · simp [Event.data_as_value, h, hv]
      · simp [Event.data_as_string, h, hv, jsonToString]
    · intro hv
      constructor
      · simp [Event.data_as_value, h, hv]
      · simp [Event.data_as_string, h, hv]
  · intro s hsd
    subst hsd
    refine ⟨by simp [Event.data_as_bytes, h], by simp [Event.data_as_string, h], ?_, ?_⟩
    · intro v hv
      simp [Event.data_as_value, h, hv]
    · intro hv
      simp [Event.data_as_value, h, hv]

/-- Witness for the amended C6: a structured payload supports all views,
JSON text reads back as a value, and non-JSON text still reads back as a
string while its value view fails with `Deserialization`. -/
theorem data_accessors_amended_witness :
    evObjA.data_as_value = .ok (.obj [("a", .num 1)]) ∧
    evObjA.data_as_string = .ok (jsonToString (.obj [("a", .num 1)])) ∧
    evStrArr.data_as_value = .ok (.arr [.num 1, .num 2]) ∧
    evStrHello.data_as_string = .ok "hello" ∧
    evStrHello.data_as_value = .error (.Deserialization "invalid JSON") := by
  refine ⟨?_, ?_, ?_, ?_, ?_⟩
  · exact ((data_accessors_amended evObjA _ rfl).2.1 _ rfl).2.1
  · exact ((data_accessors_amended evObjA _ rfl).2.1 _ rfl).2.2.1
  · exact ((data_accessors_amended evStrArr _ rfl).2.2.2 "[1,2]" rfl).2.2.1 _ (by rfl)
  · exact ((data_accessors_amended evStrHello _ rfl).2.2.2 "hello" rfl).2.1
  · exact ((data_accessors_amended evStrHello _ rfl).2.2.2 "hello" rfl).2.2.2 (by rfl)
